import Mathlib

namespace Fonts

/-!
Shallow embedding of `src/lib/ui/src/fonts.rs` (module `ui::fonts`):
a reference-counted font registry and shaped-text buffer pool.

Modelling conventions:
* Rust `usize` ids and counts are `Nat`.
* The external collaborators (font-kit `SystemSource`, font loading,
  harfbuzz face/shaping, SHA-1) are modelled at their interface boundary
  by an `Env` of oracle functions; external objects (`FontkitFont`,
  `hb::Font`, `hb::Face`) are opaque tokens.
* A Rust panic (`expect`, `unimplemented!`, indexing a vacant slot) is
  modelled as `none` in an `Option`-valued result; a normal `Option`
  return of the Rust code is modelled inside the value.
* `na::Projective3<f32>` is modelled as a 4x4 matrix over `Int`
  (the claims under study concern composition order, not rounding).
* `slab::Slab` is modelled at its documented interface: insert into a
  vacant slot (first vacant index), remove frees the slot, lookup by id.
* The hash maps (`MetroHashMap`, `IntHashMap`) are modelled as
  association lists with insert-replaces semantics.
-/

/-- Association-list lookup, modelling `HashMap::get`. -/
def mGet {α β : Type} [DecidableEq α] : List (α × β) → α → Option β
  | [], _ => none
  | (k, v) :: rest, a => if k = a then some v else mGet rest a

/-- Association-list removal of a key, modelling `HashMap::remove`. -/
def mRemove {α β : Type} [DecidableEq α] : List (α × β) → α → List (α × β)
  | [], _ => []
  | (k, v) :: rest, a => if k = a then mRemove rest a else (k, v) :: mRemove rest a

/-- Association-list insert-or-replace, modelling `HashMap::insert` and
in-place mutation through `get_mut`. -/
def mInsert {α β : Type} [DecidableEq α] (l : List (α × β)) (k : α) (v : β) :
    List (α × β) :=
  (k, v) :: mRemove l k

/-- Index of the first vacant slot of a slab storage vector (or its
length when every slot is occupied). -/
def firstVacant {α : Type} : List (Option α) → Nat
  | [] => 0
  | none :: _ => 0
  | some _ :: rest => firstVacant rest + 1

/-- Storage update used by slab insertion: put `a` into slot `k`,
appending a fresh slot when `k` is the current length. -/
def setSlot {α : Type} : List (Option α) → Nat → α → List (Option α)
  | [], _, a => [some a]
  | _ :: rest, 0, a => some a :: rest
  | o :: rest, n + 1, a => o :: setSlot rest n a

/-- Model of `slab::Slab<T>`: a vector of occupied/vacant slots,
insertion fills a vacant slot (or grows the vector), ids are indices. -/
structure Slab (α : Type) where
  entries : List (Option α)
deriving DecidableEq

/-- Model of `Slab::new`. -/
def Slab.new {α : Type} : Slab α := ⟨[]⟩

/-- Model of `Slab::get`: `none` for a vacant or out-of-range slot. -/
def Slab.get {α : Type} (s : Slab α) (i : Nat) : Option α :=
  (s.entries.getD i none)

/-- Model of `Slab::insert`: returns the new key and the updated slab. -/
def Slab.insert {α : Type} (s : Slab α) (a : α) : Nat × Slab α :=
  let k := firstVacant s.entries
  (k, ⟨setSlot s.entries k a⟩)

/-- Model of `Slab::remove`, which panics on a vacant slot: here `none`
signals the panic, otherwise the removed value and the updated slab. -/
def Slab.tryRemove {α : Type} (s : Slab α) (i : Nat) : Option (α × Slab α) :=
  match s.get i with
  | none => none
  | some a => some (a, ⟨s.entries.set i none⟩)

/-- Overwrite an occupied slot in place, modelling mutation through
`Slab::get_mut`. -/
def Slab.update {α : Type} (s : Slab α) (i : Nat) (a : α) : Slab α :=
  ⟨s.entries.set i (some a)⟩

/-! ### The transform type

`na::Projective3<f32>` is a 4x4 homogeneous matrix; `*` on transforms is
matrix multiplication and `transform * point` is the usual
matrix-times-column-vector action, so `(A * B)` acts as `B` first, `A`
second.  Scalars are modelled as `Int`. -/

/-- Model of `na::Projective3<f32>`: a 4x4 matrix with integer-modelled
scalars. -/
structure Projective3 where
  m00 : Int
  m01 : Int
  m02 : Int
  m03 : Int
  m10 : Int
  m11 : Int
  m12 : Int
  m13 : Int
  m20 : Int
  m21 : Int
  m22 : Int
  m23 : Int
  m30 : Int
  m31 : Int
  m32 : Int
  m33 : Int
deriving DecidableEq, Repr

/-- Model of `na::Projective3::identity`. -/
def Projective3.identity : Projective3 :=
  ⟨1, 0, 0, 0, 0, 1, 0, 0, 0, 0, 1, 0, 0, 0, 0, 1⟩

/-- Matrix multiplication, the meaning of `*` on two `Projective3`. -/
def Projective3.mul (A B : Projective3) : Projective3 where
  m00 := A.m00 * B.m00 + A.m01 * B.m10 + A.m02 * B.m20 + A.m03 * B.m30
  m01 := A.m00 * B.m01 + A.m01 * B.m11 + A.m02 * B.m21 + A.m03 * B.m31
  m02 := A.m00 * B.m02 + A.m01 * B.m12 + A.m02 * B.m22 + A.m03 * B.m32
  m03 := A.m00 * B.m03 + A.m01 * B.m13 + A.m02 * B.m23 + A.m03 * B.m33
  m10 := A.m10 * B.m00 + A.m11 * B.m10 + A.m12 * B.m20 + A.m13 * B.m30
  m11 := A.m10 * B.m01 + A.m11 * B.m11 + A.m12 * B.m21 + A.m13 * B.m31
  m12 := A.m10 * B.m02 + A.m11 * B.m12 + A.m12 * B.m22 + A.m13 * B.m32
  m13 := A.m10 * B.m03 + A.m11 * B.m13 + A.m12 * B.m23 + A.m13 * B.m33
  m20 := A.m20 * B.m00 + A.m21 * B.m10 + A.m22 * B.m20 + A.m23 * B.m30
  m21 := A.m20 * B.m01 + A.m21 * B.m11 + A.m22 * B.m21 + A.m23 * B.m31
  m22 := A.m20 * B.m02 + A.m21 * B.m12 + A.m22 * B.m22 + A.m23 * B.m32
  m23 := A.m20 * B.m03 + A.m21 * B.m13 + A.m22 * B.m23 + A.m23 * B.m33
  m30 := A.m30 * B.m00 + A.m31 * B.m10 + A.m32 * B.m20 + A.m33 * B.m30
  m31 := A.m30 * B.m01 + A.m31 * B.m11 + A.m32 * B.m21 + A.m33 * B.m31
  m32 := A.m30 * B.m02 + A.m31 * B.m12 + A.m32 * B.m22 + A.m33 * B.m32
  m33 := A.m30 * B.m03 + A.m31 * B.m13 + A.m32 * B.m23 + A.m33 * B.m33

/-- A point in homogeneous coordinates, acted on by `Projective3`. -/
structure Vec4 where
  x : Int
  y : Int
  z : Int
  w : Int
deriving DecidableEq, Repr

/-- Action of a transform on a point: matrix times column vector, the
meaning of `transform * point` in nalgebra. -/
def Projective3.mulVec (A : Projective3) (v : Vec4) : Vec4 where
  x := A.m00 * v.x + A.m01 * v.y + A.m02 * v.z + A.m03 * v.w
  y := A.m10 * v.x + A.m11 * v.y + A.m12 * v.z + A.m13 * v.w
  z := A.m20 * v.x + A.m21 * v.y + A.m22 * v.z + A.m23 * v.w
  w := A.m30 * v.x + A.m31 * v.y + A.m32 * v.z + A.m33 * v.w

/-! ### Data model of `mod shared` -/

/-- A 20-byte SHA-1 digest, the deduplication key (`[u8; 20]`). -/
abbrev Fingerprint := List Nat

/-- Opaque token for a parsed `font_kit::font::Font` object. -/
abbrev FontkitFont := Nat

/-- Opaque token for a harfbuzz `Face`. -/
abbrev Face := Nat

/-- Opaque token for a harfbuzz `Font` binding. -/
abbrev HbFont := Nat

/-- One element of harfbuzz `get_glyph_infos`. -/
structure HbGlyphInfo where
  codepoint : Nat
  cluster : Nat
deriving DecidableEq, Repr

/-- One element of harfbuzz `get_glyph_positions`. -/
structure HbGlyphPosition where
  x_advance : Int
  y_advance : Int
  x_offset : Int
  y_offset : Int
deriving DecidableEq, Repr

/-- Model of `hb::GlyphBuffer`, the cached shaped result: the parallel
position and info arrays the shaper produced. -/
structure GlyphBuffer where
  positions : List HbGlyphPosition
  infos : List HbGlyphInfo
deriving DecidableEq, Repr

/-- The public `GlyphPosition` record emitted by glyph queries. -/
structure GlyphPosition where
  id : Nat
  cluster : Nat
  x_advance : Int
  y_advance : Int
  x_offset : Int
  y_offset : Int
deriving DecidableEq, Repr

/-- Model of `FontData`: the per-font entry of the registry. -/
structure FontData where
  fk_font : FontkitFont
  hb_font : HbFont
  count : Nat
deriving DecidableEq, Repr

/-- Model of `BufferData`: the per-buffer entry of the pool. -/
structure BufferData where
  text : String
  transform : Projective3
  buffer : Option GlyphBuffer
  font_id : Nat
  count : Nat
deriving DecidableEq, Repr

/-- Model of `font_kit::handle::Handle`: a resolved font descriptor.
The path is modelled as its UTF-8 bytes (`to_string_lossy` output). -/
inductive Handle where
  | Path (path : List Nat) (font_index : Nat)
  | Memory (bytes : List Nat) (font_index : Nat)
deriving DecidableEq, Repr

/-- Little-endian 4-byte encoding of a `u32`, as written by
`write_u32::<LittleEndian>`. -/
def u32LE (n : Nat) : List Nat :=
  [n % 256, n / 256 % 256, n / 65536 % 256, n / 16777216 % 256]

/-- Model of `generate_fingerprint`: SHA-1 (an external digest oracle)
over the descriptor content bytes followed by the little-endian face
index. -/
def generate_fingerprint (sha1 : List Nat → Fingerprint) : Handle → Fingerprint
  | Handle.Path path font_index => sha1 (path ++ u32LE font_index)
  | Handle.Memory bytes font_index => sha1 (bytes ++ u32LE font_index)

/-- Oracles for the external collaborators of `FontsContainer`:
the platform font source (`SystemSource::select_best_match`), SHA-1,
font-kit loading, harfbuzz face/font construction and shaping. -/
structure Env where
  select_best_match : Option Handle
  sha1 : List Nat → Fingerprint
  load : Handle → Option FontkitFont
  face_from_file : List Nat → Nat → Option Face
  font_new : Face → HbFont
  set_rusttype_funcs : HbFont → Bool
  shape : HbFont → String → GlyphBuffer

/-- Model of `FontsContainer`.  The `system_source` field of the source
is an external collaborator with no observable state of its own; it is
modelled by the `Env` oracles instead. -/
structure FontsContainer where
  fonts : Slab Fingerprint
  fonts_fingerprint_id : List (Fingerprint × Nat)
  fonts_id_prop : List (Nat × FontData)
  buffers : Slab BufferData
deriving DecidableEq

/-- Model of `FontsContainer::new`. -/
def FontsContainer.new : FontsContainer :=
  ⟨Slab.new, [], [], Slab.new⟩

/-- Model of `FontsContainer::get`. -/
def FontsContainer.get (st : FontsContainer) (id : Nat) : Option FontData :=
  mGet st.fonts_id_prop id

/-- Model of `BufferData::new`: eagerly shapes the text and stores the
result with an identity transform and refcount 1. -/
def BufferData.new (shape : HbFont → String → GlyphBuffer) (font_id : Nat)
    (font_data : FontData) (text : String) : BufferData where
  text := text
  transform := Projective3.identity
  buffer := some (shape font_data.hb_font text)
  font_id := font_id
  count := 1

/-- Model of `BufferData::replace`: overwrite the text and re-shape in
place; `BufferData::shape` unwraps the stored buffer, panicking when it
is absent. -/
def BufferData.replace (shape : HbFont → String → GlyphBuffer)
    (bd : BufferData) (font_data : FontData) (text : String) : Option BufferData :=
  match bd.buffer with
  | none => none
  | some _ => some { bd with text := text, buffer := some (shape font_data.hb_font text) }

/-- Model of `BufferData::positions`: convert the cached shaped result
into `GlyphPosition` records appended to `output`; panics (`none`) when
the cached buffer is absent. -/
def BufferData.positions (bd : BufferData) (output : List GlyphPosition) :
    Option (List GlyphPosition) :=
  match bd.buffer with
  | none => none
  | some gb =>
    some (output ++ (gb.positions.zip gb.infos).map (fun pi =>
      { id := pi.2.codepoint
        cluster := pi.2.cluster
        x_advance := pi.1.x_advance
        y_advance := pi.1.y_advance
        x_offset := pi.1.x_offset
        y_offset := pi.1.y_offset }))

/-- Model of `FontsContainer::create_buffer`; panics (`none`) when the
font id is not live. -/
def FontsContainer.create_buffer (shape : HbFont → String → GlyphBuffer)
    (st : FontsContainer) (font_id : Nat) (text : String) :
    Option (Nat × FontsContainer) :=
  match st.get font_id with
  | none => none
  | some font_data =>
    let r := st.buffers.insert (BufferData.new shape font_id font_data text)
    some (r.1, { st with buffers := r.2 })

/-- Model of `FontsContainer::buffer_glyphs`; panics (`none`) when the
buffer id is not live or the cached shaped result is absent. -/
def FontsContainer.buffer_glyphs (st : FontsContainer) (buffer_id : Nat)
    (output : List GlyphPosition) : Option (List GlyphPosition) :=
  match st.buffers.get buffer_id with
  | none => none
  | some bd => bd.positions output

/-- Model of `FontsContainer::get_buffer_transform`: the buffer's own
transform matrix-multiplied by the parent transform; indexing a vacant
slot panics (`none`). -/
def FontsContainer.get_buffer_transform (st : FontsContainer) (buffer_id : Nat)
    (parent_absolute_transform : Projective3) : Option Projective3 :=
  match st.buffers.get buffer_id with
  | none => none
  | some bd => some (bd.transform.mul parent_absolute_transform)

/-- Model of `FontsContainer::get_and_inc_buffer`: a plain `Option`
result (no panic); increments the buffer refcount when found. -/
def FontsContainer.get_and_inc_buffer (st : FontsContainer) (id : Nat) :
    Option (Nat × Nat) × FontsContainer :=
  match st.buffers.get id with
  | none => (none, st)
  | some bd =>
    (some (bd.font_id, id),
     { st with buffers := st.buffers.update id { bd with count := bd.count + 1 } })

/-- Model of `FontsContainer::inc_buffer`; panics (`none`) when the id
is not live. -/
def FontsContainer.inc_buffer (st : FontsContainer) (id : Nat) :
    Option FontsContainer :=
  match st.buffers.get id with
  | none => none
  | some bd =>
    some { st with buffers := st.buffers.update id { bd with count := bd.count + 1 } }

/-- Model of `FontsContainer::delete_buffer`. -/
def FontsContainer.delete_buffer (st : FontsContainer) (id : Nat) :
    Option FontsContainer :=
  (st.buffers.tryRemove id).map (fun r => { st with buffers := r.2 })

/-- Model of `FontsContainer::dec_buffer`: decrement, then delete at
zero; panics (`none`) when the id is not live. -/
def FontsContainer.dec_buffer (st : FontsContainer) (id : Nat) :
    Option FontsContainer :=
  match st.buffers.get id with
  | none => none
  | some bd =>
    let bd' : BufferData := { bd with count := bd.count - 1 }
    let st1 : FontsContainer := { st with buffers := st.buffers.update id bd' }
    if bd'.count = 0 then st1.delete_buffer id else some st1

/-- Model of `FontsContainer::inc_font`; panics (`none`) when the id is
not live. -/
def FontsContainer.inc_font (st : FontsContainer) (id : Nat) :
    Option FontsContainer :=
  match mGet st.fonts_id_prop id with
  | none => none
  | some d =>
    some { st with fonts_id_prop := mInsert st.fonts_id_prop id { d with count := d.count + 1 } }

/-- Model of `FontsContainer::get_and_inc_font`: a plain `Option`
result (no panic); increments the font refcount when found. -/
def FontsContainer.get_and_inc_font (st : FontsContainer) (id : Nat) :
    Option Nat × FontsContainer :=
  match mGet st.fonts_id_prop id with
  | none => (none, st)
  | some d =>
    (some id,
     { st with fonts_id_prop := mInsert st.fonts_id_prop id { d with count := d.count + 1 } })

/-- Model of `FontsContainer::delete_font`: remove the entry from the
id table, the fingerprint slab and the fingerprint table; `Slab::remove`
panics (`none`) on a vacant slot. -/
def FontsContainer.delete_font (st : FontsContainer) (id : Nat) :
    Option FontsContainer :=
  match st.fonts.tryRemove id with
  | none => none
  | some r =>
    some { st with
      fonts_id_prop := mRemove st.fonts_id_prop id
      fonts := r.2
      fonts_fingerprint_id := mRemove st.fonts_fingerprint_id r.1 }

/-- Model of `FontsContainer::dec_font`: decrement, then delete at
zero; panics (`none`) when the id is not live. -/
def FontsContainer.dec_font (st : FontsContainer) (id : Nat) :
    Option FontsContainer :=
  match mGet st.fonts_id_prop id with
  | none => none
  | some d =>
    let d' : FontData := { d with count := d.count - 1 }
    let st1 : FontsContainer := { st with fonts_id_prop := mInsert st.fonts_id_prop id d' }
    if d'.count = 0 then st1.delete_font id else some st1

/-- Model of `FontsContainer::find_best_match`.  The outer `Option`
models a panic (`unimplemented!` on a memory descriptor, or an
`inc_font` panic); the inner `Option Nat` is the Rust return value. -/
def FontsContainer.find_best_match (env : Env) (st : FontsContainer) :
    Option (Option Nat × FontsContainer) :=
  match env.select_best_match with
  | none => some (none, st)
  | some font_handle =>
    let fingerprint := generate_fingerprint env.sha1 font_handle
    match mGet st.fonts_fingerprint_id fingerprint with
    | some id => (st.inc_font id).map (fun st' => (some id, st'))
    | none =>
      match env.load font_handle with
      | none => some (none, st)
      | some fk_font =>
        match font_handle with
        | Handle.Memory _ _ => none
        | Handle.Path path font_index =>
          match env.face_from_file path font_index with
          | none => some (none, st)
          | some face =>
            let hb_font := env.font_new face
            if env.set_rusttype_funcs hb_font then
              let r := st.fonts.insert fingerprint
              some (some r.1,
                { st with
                  fonts := r.2
                  fonts_fingerprint_id := mInsert st.fonts_fingerprint_id fingerprint r.1
                  fonts_id_prop := mInsert st.fonts_id_prop r.1
                    { fk_font := fk_font, hb_font := hb_font, count := 1 } })
            else
              some (none, st)

/-! ### Handles and the facade

The Rust handles carry an `Rc<RefCell<FontsContainer>>` next to their
ids; in this embedding the shared container state is threaded
explicitly, so a handle is just its id payload. -/

/-- Model of the `Font` handle (its shared container reference is
threaded explicitly). -/
structure Font where
  id : Nat
deriving DecidableEq, Repr

/-- Model of the `Buffer` handle: a buffer id plus the owned nested
font handle. -/
structure Buffer where
  _font : Font
  _id : Nat
deriving DecidableEq, Repr

/-- Model of `BufferRef`, the weak buffer reference: plain ids, no
ownership. -/
structure BufferRef where
  _font_id : Nat
  _id : Nat
deriving DecidableEq, Repr

/-- Model of `Buffer::weak_ref`: reads the two ids out of the handle,
touching no container state. -/
def Buffer.weak_ref (b : Buffer) : BufferRef :=
  { _font_id := b._font.id, _id := b._id }

/-- Model of `impl Clone for Font`: `inc_font` on the handle's id. -/
def Font.clone (st : FontsContainer) (f : Font) : Option FontsContainer :=
  st.inc_font f.id

/-- Model of `impl Drop for Font`: `dec_font` on the handle's id. -/
def Font.drop (st : FontsContainer) (f : Font) : Option FontsContainer :=
  st.dec_font f.id

/-- Model of `Buffer::new` (reached through `Font::create_buffer`): the
font handle is moved into the buffer, so no refcount changes beyond
`create_buffer` itself. -/
def Buffer.new (shape : HbFont → String → GlyphBuffer) (st : FontsContainer)
    (font : Font) (text : String) : Option (Buffer × FontsContainer) :=
  (st.create_buffer shape font.id text).map (fun r => (⟨font, r.1⟩, r.2))

/-- Model of `impl Clone for Buffer`: `inc_buffer` on the buffer id,
then `inc_font` on the nested font handle's id. -/
def Buffer.clone (st : FontsContainer) (b : Buffer) : Option FontsContainer :=
  (st.inc_buffer b._id).bind (fun st1 => st1.inc_font b._font.id)

/-- Model of `impl Drop for Buffer`: `dec_buffer` on the buffer id,
then the nested `Font` field drops, running `dec_font`. -/
def Buffer.drop (st : FontsContainer) (b : Buffer) : Option FontsContainer :=
  (st.dec_buffer b._id).bind (fun st1 => st1.dec_font b._font.id)

/-- Model of `Fonts::font_from_id` on the facade. -/
def font_from_id (st : FontsContainer) (id : Nat) :
    Option Font × FontsContainer :=
  match st.get_and_inc_font id with
  | (none, st') => (none, st')
  | (some id', st') => (some ⟨id'⟩, st')

/-- Model of `Fonts::buffer_from_id` on the facade: increments the
buffer refcount, then tries to build the nested font handle; the `?` on
`get_and_inc_font` turns a missing font into a `none` result without
undoing the buffer increment. -/
def buffer_from_id (st : FontsContainer) (buffer_id : Nat) :
    Option Buffer × FontsContainer :=
  match st.get_and_inc_buffer buffer_id with
  | (none, st') => (none, st')
  | (some fb, st') =>
    match st'.get_and_inc_font fb.1 with
    | (none, st'') => (none, st'')
    | (some fid, st'') => (some ⟨⟨fid⟩, fb.2⟩, st'')

/-- N-fold `inc_font`: N duplications of a font handle. -/
def incFontN (st : FontsContainer) (id : Nat) : Nat → Option FontsContainer
  | 0 => some st
  | n + 1 => (st.inc_font id).bind (fun st' => incFontN st' id n)

/-- N-fold `dec_font`: N releases of a font handle. -/
def decFontN (st : FontsContainer) (id : Nat) : Nat → Option FontsContainer
  | 0 => some st
  | n + 1 => (st.dec_font id).bind (fun st' => decFontN st' id n)

/-- N-fold `Buffer::drop` of the same buffer handle value. -/
def bufferDropN (st : FontsContainer) (b : Buffer) : Nat → Option FontsContainer
  | 0 => some st
  | n + 1 => (Buffer.drop st b).bind (fun st' => bufferDropN st' b n)

/-- States of the container reachable from `FontsContainer::new` by
non-panicking runs of its operations (each handle operation bottoms out
in these container primitives). -/
inductive Reach : FontsContainer → Prop where
  | new : Reach FontsContainer.new
  | find_best_match (env : Env) (st : FontsContainer) (r : Option Nat)
      (st' : FontsContainer) : Reach st →
      FontsContainer.find_best_match env st = some (r, st') → Reach st'
  | inc_font (st : FontsContainer) (id : Nat) (st' : FontsContainer) :
      Reach st → st.inc_font id = some st' → Reach st'
  | dec_font (st : FontsContainer) (id : Nat) (st' : FontsContainer) :
      Reach st → st.dec_font id = some st' → Reach st'
  | get_and_inc_font (st : FontsContainer) (id : Nat) :
      Reach st → Reach (st.get_and_inc_font id).2
  | create_buffer (shape : HbFont → String → GlyphBuffer) (st : FontsContainer)
      (font_id : Nat) (text : String) (r : Nat × FontsContainer) : Reach st →
      FontsContainer.create_buffer shape st font_id text = some r → Reach r.2
  | inc_buffer (st : FontsContainer) (id : Nat) (st' : FontsContainer) :
      Reach st → st.inc_buffer id = some st' → Reach st'
  | dec_buffer (st : FontsContainer) (id : Nat) (st' : FontsContainer) :
      Reach st → st.dec_buffer id = some st' → Reach st'
  | get_and_inc_buffer (st : FontsContainer) (id : Nat) :
      Reach st → Reach (st.get_and_inc_buffer id).2

/-! ### The font registry invariant -/

/-- Mutual consistency of the three font tables: the id-to-fingerprint
slab, the fingerprint-to-id map and the id-to-entry map. -/
def FontInv (st : FontsContainer) : Prop :=
  (∀ id fp, st.fonts.get id = some fp → mGet st.fonts_fingerprint_id fp = some id) ∧
  (∀ fp id, mGet st.fonts_fingerprint_id fp = some id → st.fonts.get id = some fp) ∧
  (∀ id, (st.fonts.get id).isSome ↔ (mGet st.fonts_id_prop id).isSome)

/-! ### Concrete values used to instantiate the theorems -/

/-- Translation by one along x, a non-identity transform. -/
def translateX : Projective3 :=
  ⟨1, 0, 0, 1, 0, 1, 0, 0, 0, 0, 1, 0, 0, 0, 0, 1⟩

/-- Scaling by two along x; does not commute with `translateX`. -/
def scaleX2 : Projective3 :=
  ⟨2, 0, 0, 0, 0, 1, 0, 0, 0, 0, 1, 0, 0, 0, 0, 1⟩

/-- The homogeneous point (1, 0, 0). -/
def pointX : Vec4 := ⟨1, 0, 0, 1⟩

/-- A buffer entry whose own transform is `translateX`. -/
def bufC : BufferData :=
  { text := "A", transform := translateX, buffer := some ⟨[], []⟩, font_id := 0, count := 1 }

/-- A container holding `bufC` as buffer 0. -/
def stBuf : FontsContainer :=
  { fonts := ⟨[]⟩, fonts_fingerprint_id := [], fonts_id_prop := [], buffers := ⟨[some bufC]⟩ }

/-- An environment whose platform source picks a file-path descriptor
but whose font parse fails. -/
def envLoadFail : Env :=
  { select_best_match := some (Handle.Path [65] 0)
    sha1 := fun l => l
    load := fun _ => none
    face_from_file := fun _ _ => some 0
    font_new := fun f => f
    set_rusttype_funcs := fun _ => true
    shape := fun _ _ => ⟨[], []⟩ }

/-- An environment whose platform source picks a raw-bytes (memory)
descriptor and whose font parse fails. -/
def envMemLoadFail : Env :=
  { select_best_match := some (Handle.Memory [7] 0)
    sha1 := fun l => l
    load := fun _ => none
    face_from_file := fun _ _ => some 0
    font_new := fun f => f
    set_rusttype_funcs := fun _ => true
    shape := fun _ _ => ⟨[], []⟩ }

/-- An environment whose platform source picks a raw-bytes descriptor
and whose font parse succeeds. -/
def envMemLoadOk : Env :=
  { select_best_match := some (Handle.Memory [7] 0)
    sha1 := fun l => l
    load := fun _ => some 0
    face_from_file := fun _ _ => some 0
    font_new := fun f => f
    set_rusttype_funcs := fun _ => true
    shape := fun _ _ => ⟨[], []⟩ }

/-- An environment whose platform source picks a file-path descriptor
and every loading stage succeeds. -/
def envPathOk : Env :=
  { select_best_match := some (Handle.Path [65] 0)
    sha1 := fun l => l
    load := fun _ => some 0
    face_from_file := fun _ _ => some 0
    font_new := fun f => f
    set_rusttype_funcs := fun _ => true
    shape := fun _ _ => ⟨[], []⟩ }

/-- The container after one successful resolution from empty. -/
def stP1 : FontsContainer :=
  ((FontsContainer.find_best_match envPathOk FontsContainer.new).getD
    (none, FontsContainer.new)).2

/-- The container after a second resolution of the same descriptor. -/
def stP2 : FontsContainer :=
  ((FontsContainer.find_best_match envPathOk stP1).getD (none, FontsContainer.new)).2

/-- A sample fingerprint. -/
def fpW : Fingerprint := [1, 2]

/-- A container holding a single font entry with refcount 1. -/
def stFontOne : FontsContainer :=
  { fonts := ⟨[some fpW]⟩
    fonts_fingerprint_id := [(fpW, 0)]
    fonts_id_prop := [(0, { fk_font := 0, hb_font := 0, count := 1 })]
    buffers := ⟨[]⟩ }

/-- A buffer entry bound to font 0 with refcount 2. -/
def bufW : BufferData :=
  { text := "A", transform := Projective3.identity, buffer := some ⟨[], []⟩
    font_id := 0, count := 2 }

/-- A container with one font entry (refcount 2) and one buffer bound
to it (refcount 2). -/
def stBufFont : FontsContainer :=
  { fonts := ⟨[some fpW]⟩
    fonts_fingerprint_id := [(fpW, 0)]
    fonts_id_prop := [(0, { fk_font := 0, hb_font := 0, count := 2 })]
    buffers := ⟨[some bufW]⟩ }

/-- The buffer handle for buffer 0 of `stBufFont`. -/
def bW : Buffer := { _font := { id := 0 }, _id := 0 }

/-- A shaped run with one glyph. -/
def gbW : GlyphBuffer := ⟨[⟨5, 0, 1, 0⟩], [⟨33, 0⟩]⟩

/-- A buffer entry caching `gbW`. -/
def bufG : BufferData :=
  { text := "!", transform := Projective3.identity, buffer := some gbW
    font_id := 0, count := 1 }

/-- A container holding `bufG` as buffer 0. -/
def stGlyph : FontsContainer :=
  { fonts := ⟨[]⟩, fonts_fingerprint_id := [], fonts_id_prop := [], buffers := ⟨[some bufG]⟩ }

/-- A buffer entry whose recorded font id (5) has no font entry. -/
def bufOrphan : BufferData :=
  { text := "A", transform := Projective3.identity, buffer := some ⟨[], []⟩
    font_id := 5, count := 1 }

/-- A container holding `bufOrphan` as buffer 0 and no fonts. -/
def stOrphan : FontsContainer :=
  { fonts := ⟨[]⟩, fonts_fingerprint_id := [], fonts_id_prop := [], buffers := ⟨[some bufOrphan]⟩ }

/-- The three font tables agree: the id-to-fingerprint slab and the
fingerprint-to-id map are mutual inverses, an id is in the slab exactly
when it is in the id-to-entry map, and no two ids carry the same
fingerprint. -/
def RegistryConsistent (st : FontsContainer) : Prop :=
  (∀ id fp, st.fonts.get id = some fp → mGet st.fonts_fingerprint_id fp = some id) ∧
  (∀ fp id, mGet st.fonts_fingerprint_id fp = some id → st.fonts.get id = some fp) ∧
  (∀ id, (st.fonts.get id).isSome ↔ (mGet st.fonts_id_prop id).isSome) ∧
  (∀ id1 id2 fp, st.fonts.get id1 = some fp → st.fonts.get id2 = some fp → id1 = id2)

/-- Releasing a font whose refcount is 1 removes its entry from the id
table, the fingerprint slab and the fingerprint table in the one step
the caller observes. -/
def ReleaseRemovesBoth (st : FontsContainer) : Prop :=
  ∀ id d fp, mGet st.fonts_id_prop id = some d → d.count = 1 →
    st.fonts.get id = some fp →
    ∃ st', st.dec_font id = some st' ∧
      mGet st'.fonts_id_prop id = none ∧ st'.fonts.get id = none ∧
      mGet st'.fonts_fingerprint_id fp = none

theorem mGet_mRemove {α β : Type} [DecidableEq α] (l : List (α × β)) (k a : α) :
    mGet (mRemove l k) a = if a = k then none else mGet l a := by
  induction l with
  | nil => simp [mRemove, mGet]
  | cons hd tl ih =>
    obtain ⟨k', v⟩ := hd
    simp only [mRemove]
    by_cases hk : k' = k
    · subst hk
      rw [if_pos rfl, ih]
      by_cases hak : a = k'
      · simp [hak]
      · simp [mGet, hak, Ne.symm hak]
    · rw [if_neg hk]
      simp only [mGet]
      by_cases hka : k' = a
      · have hak : ¬a = k := fun h => hk (hka.trans h)
        simp [hka, hak]
      · simp [hka, ih]

theorem mGet_mInsert {α β : Type} [DecidableEq α] (l : List (α × β)) (k a : α) (v : β) :
    mGet (mInsert l k v) a = if a = k then some v else mGet l a := by
  unfold mInsert
  simp only [mGet, mGet_mRemove]
  by_cases h : a = k
  · simp [h]
  · simp [h, Ne.symm h]

theorem mGet_mInsert_self {α β : Type} [DecidableEq α] (l : List (α × β)) (k : α) (v : β) :
    mGet (mInsert l k v) k = some v := by
  simp [mGet_mInsert]

theorem mGet_mInsert_ne {α β : Type} [DecidableEq α] (l : List (α × β)) (k a : α) (v : β)
    (h : a ≠ k) : mGet (mInsert l k v) a = mGet l a := by
  simp [mGet_mInsert, h]

theorem mRemove_mRemove {α β : Type} [DecidableEq α] (l : List (α × β)) (k : α) :
    mRemove (mRemove l k) k = mRemove l k := by
  induction l with
  | nil => rfl
  | cons hd tl ih =>
    obtain ⟨k', v'⟩ := hd
    simp only [mRemove]
    by_cases hk : k' = k
    · simp [hk, ih]
    · simp only [if_neg hk, mRemove, if_neg hk, ih]

theorem mRemove_mInsert {α β : Type} [DecidableEq α] (l : List (α × β)) (k : α) (v : β) :
    mRemove (mInsert l k v) k = mRemove l k := by
  show mRemove ((k, v) :: mRemove l k) k = mRemove l k
  simp [mRemove, mRemove_mRemove]

theorem mInsert_mInsert {α β : Type} [DecidableEq α] (l : List (α × β)) (k : α) (v w : β) :
    mInsert (mInsert l k v) k w = mInsert l k w := by
  show (k, w) :: mRemove (mInsert l k v) k = (k, w) :: mRemove l k
  rw [mRemove_mInsert]

theorem firstVacant_le_length {α : Type} (l : List (Option α)) :
    firstVacant l ≤ l.length := by
  induction l with
  | nil => simp [firstVacant]
  | cons hd tl ih =>
    cases hd with
    | none => simp [firstVacant]
    | some a => simpa [firstVacant] using ih

theorem getD_firstVacant {α : Type} (l : List (Option α)) :
    l.getD (firstVacant l) none = none := by
  induction l with
  | nil => simp
  | cons hd tl ih =>
    cases hd with
    | none => simp [firstVacant]
    | some a => simpa [firstVacant] using ih

theorem getD_setSlot {α : Type} (l : List (Option α)) (k : Nat) (a : α)
    (hk : k ≤ l.length) (i : Nat) :
    (setSlot l k a).getD i none = if i = k then some a else l.getD i none := by
  induction l generalizing k i with
  | nil =>
    have hk0 : k = 0 := Nat.le_zero.mp hk
    subst hk0
    match i with
    | 0 => simp [setSlot]
    | j + 1 => simp [setSlot]
  | cons hd tl ih =>
    match k with
    | 0 =>
      match i with
      | 0 => simp [setSlot]
      | j + 1 => simp [setSlot]
    | n + 1 =>
      match i with
      | 0 => simp [setSlot]
      | j + 1 =>
        have hn : n ≤ tl.length := by simpa using hk
        simpa [setSlot, List.getD_eq_getElem?_getD] using ih n hn j

theorem Slab.get_insert {α : Type} (s : Slab α) (a : α) (i : Nat) :
    ((s.insert a).2).get i = if i = (s.insert a).1 then some a else s.get i := by
  simp only [Slab.insert, Slab.get]
  exact getD_setSlot s.entries (firstVacant s.entries) a (firstVacant_le_length _) i

theorem Slab.get_insert_key {α : Type} (s : Slab α) (a : α) :
    s.get (s.insert a).1 = none := by
  simp only [Slab.insert, Slab.get]
  exact getD_firstVacant s.entries

theorem Slab.get_tryRemove {α : Type} (s s' : Slab α) (i : Nat) (a : α)
    (h : s.tryRemove i = some (a, s')) (j : Nat) :
    s'.get j = if j = i then none else s.get j := by
  unfold Slab.tryRemove at h
  cases hg : s.get i with
  | none => rw [hg] at h; cases h
  | some b =>
    rw [hg] at h
    cases h
    simp only [Slab.get]
    by_cases hji : j = i
    · subst hji
      have hlen : j < s.entries.length := by
        by_contra hlt
        push_neg at hlt
        have : s.entries.getD j none = none := List.getD_eq_default _ _ hlt
        rw [Slab.get, this] at hg
        cases hg
      simp [List.getD_eq_getElem?_getD, List.getElem?_set_self, hlen]
    · simp [List.getD_eq_getElem?_getD, List.getElem?_set_ne (fun h => hji h.symm), hji]

theorem Slab.tryRemove_isSome {α : Type} (s : Slab α) (i : Nat) (a : α)
    (h : s.get i = some a) : s.tryRemove i = some (a, ⟨s.entries.set i none⟩) := by
  unfold Slab.tryRemove
  rw [h]

theorem Slab.lt_length_of_get_some {α : Type} (s : Slab α) (i : Nat) (b : α)
    (h : s.get i = some b) : i < s.entries.length := by
  by_contra hlt
  push_neg at hlt
  have hd : s.entries.getD i none = none := List.getD_eq_default _ _ hlt
  rw [Slab.get, hd] at h
  cases h

theorem Slab.get_update {α : Type} (s : Slab α) (i : Nat) (a b : α)
    (h : s.get i = some b) (j : Nat) :
    (s.update i a).get j = if j = i then some a else s.get j := by
  have hlen : i < s.entries.length := s.lt_length_of_get_some i b h
  simp only [Slab.update, Slab.get]
  by_cases hji : j = i
  · subst hji
    simp [List.getD_eq_getElem?_getD, List.getElem?_set_self, hlen]
  · simp [List.getD_eq_getElem?_getD, List.getElem?_set_ne (fun h => hji h.symm), hji]

theorem Projective3.mul_mulVec (A B : Projective3) (v : Vec4) :
    (A.mul B).mulVec v = A.mulVec (B.mulVec v) := by
  simp only [Projective3.mul, Projective3.mulVec, Vec4.mk.injEq]
  refine ⟨by ring, by ring, by ring, by ring⟩

theorem fontInv_new : FontInv FontsContainer.new := by
  refine ⟨?_, ?_, ?_⟩ <;> intro x <;>
    simp [FontsContainer.new, Slab.new, Slab.get, mGet]

theorem fontInv_buffers {st : FontsContainer} (b : Slab BufferData)
    (h : FontInv st) : FontInv { st with buffers := b } :=
  h

theorem fontInv_mInsert_existing {st : FontsContainer} {id : Nat} {d : FontData}
    (d' : FontData) (hm : mGet st.fonts_id_prop id = some d) (h : FontInv st) :
    FontInv { st with fonts_id_prop := mInsert st.fonts_id_prop id d' } := by
  obtain ⟨h1, h2, h3⟩ := h
  refine ⟨h1, h2, ?_⟩
  intro x
  show (st.fonts.get x).isSome ↔ (mGet (mInsert st.fonts_id_prop id d') x).isSome
  rw [mGet_mInsert]
  by_cases hx : x = id
  · subst hx
    rw [if_pos rfl, h3, hm]
    simp
  · rw [if_neg hx]
    exact h3 x

theorem inc_font_eq {st st' : FontsContainer} {id : Nat}
    (h : st.inc_font id = some st') :
    ∃ d, mGet st.fonts_id_prop id = some d ∧
      st' = { st with
        fonts_id_prop := mInsert st.fonts_id_prop id { d with count := d.count + 1 } } := by
  unfold FontsContainer.inc_font at h
  cases hm : mGet st.fonts_id_prop id with
  | none => rw [hm] at h; cases h
  | some d => rw [hm] at h; exact ⟨d, rfl, (Option.some.inj h).symm⟩

theorem fontInv_inc_font {st st' : FontsContainer} {id : Nat}
    (h : st.inc_font id = some st') (hinv : FontInv st) : FontInv st' := by
  obtain ⟨d, hm, rfl⟩ := inc_font_eq h
  exact fontInv_mInsert_existing _ hm hinv

theorem fontInv_get_and_inc_font (st : FontsContainer) (id : Nat)
    (hinv : FontInv st) : FontInv (st.get_and_inc_font id).2 := by
  unfold FontsContainer.get_and_inc_font
  cases hm : mGet st.fonts_id_prop id with
  | none => exact hinv
  | some d => exact fontInv_mInsert_existing _ hm hinv

/-- Explicit description of the state after a `delete_font` that did
not panic. -/
theorem delete_font_eq {st st' : FontsContainer} {id : Nat}
    (h : st.delete_font id = some st') :
    ∃ fp, st.fonts.get id = some fp ∧
      st' = { st with
        fonts_id_prop := mRemove st.fonts_id_prop id,
        fonts := ⟨st.fonts.entries.set id none⟩,
        fonts_fingerprint_id := mRemove st.fonts_fingerprint_id fp } := by
  unfold FontsContainer.delete_font at h
  cases hg : st.fonts.get id with
  | none =>
    have hr : st.fonts.tryRemove id = none := by
      unfold Slab.tryRemove
      rw [hg]
    rw [hr] at h
    cases h
  | some fp =>
    rw [Slab.tryRemove_isSome st.fonts id fp hg] at h
    simp only at h
    exact ⟨fp, rfl, (Option.some.inj h).symm⟩

theorem fontInv_delete_font {st st' : FontsContainer} {id : Nat}
    (h : st.delete_font id = some st') (hinv : FontInv st) : FontInv st' := by
  obtain ⟨h1, h2, h3⟩ := hinv
  obtain ⟨fp, hg, rfl⟩ := delete_font_eq h
  have hrem : ∀ j, (Slab.mk (st.fonts.entries.set id none) : Slab Fingerprint).get j =
      if j = id then none else st.fonts.get j := by
    intro j
    have := Slab.get_tryRemove st.fonts ⟨st.fonts.entries.set id none⟩ id fp
      (Slab.tryRemove_isSome st.fonts id fp hg) j
    exact this
  refine ⟨?_, ?_, ?_⟩
  · intro x fp' hx
    rw [show (⟨⟨st.fonts.entries.set id none⟩, mRemove st.fonts_fingerprint_id fp,
        mRemove st.fonts_id_prop id, st.buffers⟩ : FontsContainer).fonts.get x =
        (Slab.mk (st.fonts.entries.set id none) : Slab Fingerprint).get x from rfl,
      hrem] at hx
    by_cases hxi : x = id
    · rw [if_pos hxi] at hx; cases hx
    · rw [if_neg hxi] at hx
      have hold := h1 x fp' hx
      show mGet (mRemove st.fonts_fingerprint_id fp) fp' = some x
      rw [mGet_mRemove]
      by_cases hfp : fp' = fp
      · have hid := h1 id fp hg
        rw [hfp] at hold
        rw [hid] at hold
        cases hold
        exact absurd rfl hxi
      · rw [if_neg hfp]
        exact hold
  · intro fp' x hx
    rw [show mGet ((⟨⟨st.fonts.entries.set id none⟩, mRemove st.fonts_fingerprint_id fp,
        mRemove st.fonts_id_prop id, st.buffers⟩ : FontsContainer).fonts_fingerprint_id) fp' =
        mGet (mRemove st.fonts_fingerprint_id fp) fp' from rfl, mGet_mRemove] at hx
    by_cases hfp : fp' = fp
    · rw [if_pos hfp] at hx; cases hx
    · rw [if_neg hfp] at hx
      have hold := h2 fp' x hx
      show (Slab.mk (st.fonts.entries.set id none) : Slab Fingerprint).get x = some fp'
      rw [hrem]
      by_cases hxi : x = id
      · subst hxi
        rw [hg] at hold
        cases hold
        exact absurd rfl hfp
      · rw [if_neg hxi]
        exact hold
  · intro x
    show ((Slab.mk (st.fonts.entries.set id none) : Slab Fingerprint).get x).isSome ↔
      (mGet (mRemove st.fonts_id_prop id) x).isSome
    rw [hrem, mGet_mRemove]
    by_cases hxi : x = id
    · simp [hxi]
    · rw [if_neg hxi, if_neg hxi]
      exact h3 x

theorem dec_font_cases {st st' : FontsContainer} {id : Nat}
    (h : st.dec_font id = some st') :
    ∃ d, mGet st.fonts_id_prop id = some d ∧
      ((d.count - 1 ≠ 0 ∧ st' = { st with
          fonts_id_prop := mInsert st.fonts_id_prop id { d with count := d.count - 1 } }) ∨
       (d.count - 1 = 0 ∧
          FontsContainer.delete_font
            { st with
              fonts_id_prop := mInsert st.fonts_id_prop id { d with count := d.count - 1 } }
            id = some st')) := by
  unfold FontsContainer.dec_font at h
  cases hm : mGet st.fonts_id_prop id with
  | none => rw [hm] at h; cases h
  | some d =>
    rw [hm] at h
    simp only at h
    by_cases hc : d.count - 1 = 0
    · rw [if_pos hc] at h
      exact ⟨d, rfl, Or.inr ⟨hc, h⟩⟩
    · rw [if_neg hc] at h
      exact ⟨d, rfl, Or.inl ⟨hc, (Option.some.inj h).symm⟩⟩

theorem fontInv_dec_font {st st' : FontsContainer} {id : Nat}
    (h : st.dec_font id = some st') (hinv : FontInv st) : FontInv st' := by
  obtain ⟨d, hm, hcase⟩ := dec_font_cases h
  rcases hcase with ⟨-, rfl⟩ | ⟨-, hdel⟩
  · exact fontInv_mInsert_existing _ hm hinv
  · exact fontInv_delete_font hdel (fontInv_mInsert_existing _ hm hinv)

theorem fontInv_find_best_match {env : Env} {st st' : FontsContainer}
    {r : Option Nat} (h : FontsContainer.find_best_match env st = some (r, st'))
    (hinv : FontInv st) : FontInv st' := by
  unfold FontsContainer.find_best_match at h
  cases hsel : env.select_best_match with
  | none =>
    rw [hsel] at h
    simp only [Option.some.injEq, Prod.mk.injEq] at h
    rw [← h.2]
    exact hinv
  | some font_handle =>
    rw [hsel] at h
    simp only at h
    cases hfp : mGet st.fonts_fingerprint_id (generate_fingerprint env.sha1 font_handle) with
    | some id =>
      rw [hfp] at h
      simp only at h
      cases hinc : st.inc_font id with
      | none => rw [hinc] at h; cases h
      | some st1 =>
        rw [hinc] at h
        simp only [Option.map_some', Option.some.injEq, Prod.mk.injEq] at h
        rw [← h.2]
        exact fontInv_inc_font hinc hinv
    | none =>
      rw [hfp] at h
      simp only at h
      cases hload : env.load font_handle with
      | none =>
        rw [hload] at h
        simp only [Option.some.injEq, Prod.mk.injEq] at h
        rw [← h.2]
        exact hinv
      | some fk_font =>
        rw [hload] at h
        simp only at h
        cases font_handle with
        | Memory bytes font_index => simp only at h; cases h
        | Path path font_index =>
          simp only at h
          cases hface : env.face_from_file path font_index with
          | none =>
            rw [hface] at h
            simp only [Option.some.injEq, Prod.mk.injEq] at h
            rw [← h.2]
            exact hinv
          | some face =>
            rw [hface] at h
            simp only at h
            by_cases hrt : env.set_rusttype_funcs (env.font_new face) = true
            · rw [if_pos hrt] at h
              simp only [Option.some.injEq, Prod.mk.injEq] at h
              rw [← h.2]
              obtain ⟨h1, h2, h3⟩ := hinv
              have hfresh : st.fonts.get
                  (st.fonts.insert (generate_fingerprint env.sha1 (Handle.Path path font_index))).1 =
                  none := Slab.get_insert_key _ _
              set fp := generate_fingerprint env.sha1 (Handle.Path path font_index) with hfpdef
              set k := (st.fonts.insert fp).1 with hkdef
              refine ⟨?_, ?_, ?_⟩
              · intro x fp' hx
                rw [show ((st.fonts.insert fp).2).get x =
                    if x = k then some fp else st.fonts.get x from Slab.get_insert st.fonts fp x] at hx
                show mGet (mInsert st.fonts_fingerprint_id fp k) fp' = some x
                rw [mGet_mInsert]
                by_cases hxk : x = k
                · rw [if_pos hxk] at hx
                  cases Option.some.inj hx
                  rw [if_pos rfl, hxk]
                · rw [if_neg hxk] at hx
                  have hold := h1 x fp' hx
                  by_cases hfp' : fp' = fp
                  · subst hfp'
                    rw [hold] at hfp
                    cases hfp
                  · rw [if_neg hfp']
                    exact hold
              · intro fp' x hx
                rw [show mGet (mInsert st.fonts_fingerprint_id fp k) fp' =
                    if fp' = fp then some k else mGet st.fonts_fingerprint_id fp'
                    from mGet_mInsert _ _ _ _] at hx
                show ((st.fonts.insert fp).2).get x = some fp'
                rw [Slab.get_insert st.fonts fp x]
                by_cases hfp' : fp' = fp
                · rw [if_pos hfp'] at hx
                  cases Option.some.inj hx
                  rw [if_pos rfl, hfp']
                · rw [if_neg hfp'] at hx
                  have hold := h2 fp' x hx
                  by_cases hxk : x = k
                  · subst hxk
                    rw [hold] at hfresh
                    cases hfresh
                  · rw [if_neg hxk]
                    exact hold
              · intro x
                show (((st.fonts.insert fp).2).get x).isSome ↔
                  (mGet (mInsert st.fonts_id_prop k
                    { fk_font := fk_font, hb_font := env.font_new face, count := 1 }) x).isSome
                rw [Slab.get_insert st.fonts fp x, mGet_mInsert]
                by_cases hxk : x = k
                · simp [hxk]
                · rw [if_neg hxk, if_neg hxk]
                  exact h3 x
            · rw [if_neg hrt] at h
              simp only [Option.some.injEq, Prod.mk.injEq] at h
              rw [← h.2]
              exact hinv

theorem inc_buffer_buffers_only {st st' : FontsContainer} {id : Nat}
    (h : st.inc_buffer id = some st') :
    ∃ b, st' = { st with buffers := b } := by
  unfold FontsContainer.inc_buffer at h
  cases hm : st.buffers.get id with
  | none => rw [hm] at h; cases h
  | some bd =>
    rw [hm] at h
    exact ⟨_, (Option.some.inj h).symm⟩

theorem dec_buffer_buffers_only {st st' : FontsContainer} {id : Nat}
    (h : st.dec_buffer id = some st') :
    ∃ b, st' = { st with buffers := b } := by
  unfold FontsContainer.dec_buffer at h
  cases hm : st.buffers.get id with
  | none => rw [hm] at h; cases h
  | some bd =>
    rw [hm] at h
    simp only at h
    by_cases hc : bd.count - 1 = 0
    · rw [if_pos hc] at h
      unfold FontsContainer.delete_buffer at h
      cases hr : Slab.tryRemove
          (st.buffers.update id { bd with count := bd.count - 1 }) id with
      | none =>
        rw [show ({ st with buffers := st.buffers.update id { bd with count := bd.count - 1 } } :
          FontsContainer).buffers = st.buffers.update id { bd with count := bd.count - 1 }
          from rfl, hr] at h
        cases h
      | some r =>
        rw [show ({ st with buffers := st.buffers.update id { bd with count := bd.count - 1 } } :
          FontsContainer).buffers = st.buffers.update id { bd with count := bd.count - 1 }
          from rfl, hr] at h
        cases Option.some.inj h
        exact ⟨_, rfl⟩
    · rw [if_neg hc] at h
      cases Option.some.inj h
      exact ⟨_, rfl⟩

theorem get_and_inc_buffer_buffers_only (st : FontsContainer) (id : Nat) :
    ∃ b, (st.get_and_inc_buffer id).2 = { st with buffers := b } := by
  unfold FontsContainer.get_and_inc_buffer
  cases hm : st.buffers.get id with
  | none => exact ⟨st.buffers, rfl⟩
  | some bd => exact ⟨_, rfl⟩

theorem create_buffer_buffers_only {shape : HbFont → String → GlyphBuffer}
    {st : FontsContainer} {font_id : Nat} {text : String} {r : Nat × FontsContainer}
    (h : FontsContainer.create_buffer shape st font_id text = some r) :
    ∃ b, r.2 = { st with buffers := b } := by
  unfold FontsContainer.create_buffer at h
  cases hm : st.get font_id with
  | none => rw [hm] at h; cases h
  | some fd =>
    rw [hm] at h
    cases Option.some.inj h
    exact ⟨_, rfl⟩

/-- Every reachable container state satisfies the font registry
invariant. -/
theorem reach_fontInv {st : FontsContainer} (h : Reach st) : FontInv st := by
  induction h with
  | new => exact fontInv_new
  | find_best_match env st r st' _ heq ih => exact fontInv_find_best_match heq ih
  | inc_font st id st' _ heq ih => exact fontInv_inc_font heq ih
  | dec_font st id st' _ heq ih => exact fontInv_dec_font heq ih
  | get_and_inc_font st id _ ih => exact fontInv_get_and_inc_font st id ih
  | create_buffer shape st font_id text r _ heq ih =>
    obtain ⟨b, hb⟩ := create_buffer_buffers_only heq
    rw [hb]; exact fontInv_buffers b ih
  | inc_buffer st id st' _ heq ih =>
    obtain ⟨b, hb⟩ := inc_buffer_buffers_only heq
    rw [hb]; exact fontInv_buffers b ih
  | dec_buffer st id st' _ heq ih =>
    obtain ⟨b, hb⟩ := dec_buffer_buffers_only heq
    rw [hb]; exact fontInv_buffers b ih
  | get_and_inc_buffer st id _ ih =>
    obtain ⟨b, hb⟩ := get_and_inc_buffer_buffers_only st id
    rw [hb]; exact fontInv_buffers b ih

theorem Slab.get_set_none {α : Type} (s : Slab α) (i : Nat) :
    (Slab.mk (s.entries.set i none) : Slab α).get i = none := by
  unfold Slab.get
  by_cases h : i < s.entries.length
  · simp [List.getD_eq_getElem?_getD, List.getElem?_set_self, h]
  · push_neg at h
    have : (s.entries.set i none).length ≤ i := by
      rw [List.length_set]; exact h
    exact List.getD_eq_default _ _ this

/-- A `find_best_match` call that returned no handle left the container
exactly as it was. -/
theorem find_best_match_none_eq {env : Env} {st st' : FontsContainer}
    (h : FontsContainer.find_best_match env st = some (none, st')) : st' = st := by
  unfold FontsContainer.find_best_match at h
  cases hsel : env.select_best_match with
  | none =>
    rw [hsel] at h
    simp only [Option.some.injEq, Prod.mk.injEq] at h
    exact h.2.symm
  | some font_handle =>
    rw [hsel] at h
    simp only at h
    cases hfp : mGet st.fonts_fingerprint_id (generate_fingerprint env.sha1 font_handle) with
    | some id =>
      rw [hfp] at h
      simp only at h
      cases hinc : st.inc_font id with
      | none => rw [hinc] at h; cases h
      | some st1 =>
        rw [hinc] at h
        simp only [Option.map_some', Option.some.injEq, Prod.mk.injEq] at h
        cases h.1
    | none =>
      rw [hfp] at h
      simp only at h
      cases hload : env.load font_handle with
      | none =>
        rw [hload] at h
        simp only [Option.some.injEq, Prod.mk.injEq] at h
        exact h.2.symm
      | some fk_font =>
        rw [hload] at h
        simp only at h
        cases font_handle with
        | Memory bytes font_index => simp only at h; cases h
        | Path path font_index =>
          simp only at h
          cases hface : env.face_from_file path font_index with
          | none =>
            rw [hface] at h
            simp only [Option.some.injEq, Prod.mk.injEq] at h
            exact h.2.symm
          | some face =>
            rw [hface] at h
            simp only at h
            by_cases hrt : env.set_rusttype_funcs (env.font_new face) = true
            · rw [if_pos hrt] at h
              simp only [Option.some.injEq, Prod.mk.injEq] at h
              cases h.1
            · rw [if_neg hrt] at h
              simp only [Option.some.injEq, Prod.mk.injEq] at h
              exact h.2.symm

/-- A `find_best_match` call that produced a handle for a fingerprint
that was not yet registered inserted exactly one fresh entry with
refcount 1 into all three tables. -/
theorem find_best_match_fresh_eq {env : Env} {st st' : FontsContainer}
    {font_handle : Handle} {id : Nat}
    (hsel : env.select_best_match = some font_handle)
    (hfp : mGet st.fonts_fingerprint_id (generate_fingerprint env.sha1 font_handle) = none)
    (h : FontsContainer.find_best_match env st = some (some id, st')) :
    id = (st.fonts.insert (generate_fingerprint env.sha1 font_handle)).1 ∧
    st.fonts.get id = none ∧
    ∃ fk_font face, env.load font_handle = some fk_font ∧
      st' = { st with
        fonts := (st.fonts.insert (generate_fingerprint env.sha1 font_handle)).2,
        fonts_fingerprint_id := mInsert st.fonts_fingerprint_id
          (generate_fingerprint env.sha1 font_handle) id,
        fonts_id_prop := mInsert st.fonts_id_prop id
          { fk_font := fk_font, hb_font := env.font_new face, count := 1 } } := by
  unfold FontsContainer.find_best_match at h
  rw [hsel] at h
  simp only at h
  rw [hfp] at h
  simp only at h
  cases hload : env.load font_handle with
  | none =>
    rw [hload] at h
    simp only [Option.some.injEq, Prod.mk.injEq] at h
    cases h.1
  | some fk_font =>
    rw [hload] at h
    simp only at h
    cases font_handle with
    | Memory bytes font_index => simp only at h; cases h
    | Path path font_index =>
      simp only at h
      cases hface : env.face_from_file path font_index with
      | none =>
        rw [hface] at h
        simp only [Option.some.injEq, Prod.mk.injEq] at h
        cases h.1
      | some face =>
        rw [hface] at h
        simp only at h
        by_cases hrt : env.set_rusttype_funcs (env.font_new face) = true
        · rw [if_pos hrt] at h
          simp only [Option.some.injEq, Prod.mk.injEq] at h
          obtain ⟨hid, hst⟩ := h
          cases hid
          refine ⟨rfl, Slab.get_insert_key _ _, fk_font, face, rfl, hst.symm⟩
        · rw [if_neg hrt] at h
          simp only [Option.some.injEq, Prod.mk.injEq] at h
          cases h.1

/-- A `find_best_match` call for an already-registered fingerprint
increments that entry's refcount and returns its id. -/
theorem find_best_match_registered_eq {env : Env} {st : FontsContainer}
    {font_handle : Handle} {id : Nat}
    (hsel : env.select_best_match = some font_handle)
    (hfp : mGet st.fonts_fingerprint_id (generate_fingerprint env.sha1 font_handle) = some id) :
    FontsContainer.find_best_match env st =
      (st.inc_font id).map (fun st1 => (some id, st1)) := by
  unfold FontsContainer.find_best_match
  rw [hsel]
  simp only
  rw [hfp]

/-- C3 counterexample: at buffer 0 of `stBuf` (own transform
`translateX`) with parent `scaleX2`, the returned transform applied to
`pointX` equals the buffer transform applied after the parent — not the
claimed order in which the buffer transform acts first and the parent
second. -/
theorem get_buffer_transform_order_counterexample :
    FontsContainer.get_buffer_transform stBuf 0 scaleX2 = some (translateX.mul scaleX2) ∧
    (translateX.mul scaleX2).mulVec pointX = translateX.mulVec (scaleX2.mulVec pointX) ∧
    (translateX.mul scaleX2).mulVec pointX ≠ scaleX2.mulVec (translateX.mulVec pointX) := by
  refine ⟨rfl, by decide, by decide⟩

/-- C3 (amended): for every live buffer, `get_buffer_transform` returns
`buffer.transform * parent` — the matrix product whose action applies
the parent transform to a point first and the buffer's own transform
second. -/
theorem get_buffer_transform_composes_parent_first (st : FontsContainer)
    (buffer_id : Nat) (bd : BufferData) (parent : Projective3)
    (h : st.buffers.get buffer_id = some bd) :
    FontsContainer.get_buffer_transform st buffer_id parent = some (bd.transform.mul parent) ∧
    ∀ v, (bd.transform.mul parent).mulVec v = bd.transform.mulVec (parent.mulVec v) := by
  constructor
  · unfold FontsContainer.get_buffer_transform
    rw [h]
  · intro v
    exact Projective3.mul_mulVec _ _ _

/-- Witness for the amended C3 theorem at buffer 0 of `stBuf`. -/
theorem get_buffer_transform_composes_parent_first_witness :
    FontsContainer.get_buffer_transform stBuf 0 scaleX2 = some (bufC.transform.mul scaleX2) ∧
    ∀ v, (bufC.transform.mul scaleX2).mulVec v = bufC.transform.mulVec (scaleX2.mulVec v) :=
  get_buffer_transform_composes_parent_first stBuf 0 bufC scaleX2 rfl

/-- C6: whenever `find_best_match` returns no handle the container is
exactly as it was before the call, and each loading failure stage for a
newly-fingerprinted font — font parse failure, face-load failure on a
path descriptor, shaping-function setup failure — produces a no-handle
result with the state unchanged. -/
theorem find_best_match_failure_leaves_state (env : Env) (st : FontsContainer) :
    (∀ st', FontsContainer.find_best_match env st = some (none, st') → st' = st) ∧
    (∀ font_handle, env.select_best_match = some font_handle →
      mGet st.fonts_fingerprint_id (generate_fingerprint env.sha1 font_handle) = none →
      env.load font_handle = none →
      FontsContainer.find_best_match env st = some (none, st)) ∧
    (∀ path font_index fk_font,
      env.select_best_match = some (Handle.Path path font_index) →
      mGet st.fonts_fingerprint_id
        (generate_fingerprint env.sha1 (Handle.Path path font_index)) = none →
      env.load (Handle.Path path font_index) = some fk_font →
      env.face_from_file path font_index = none →
      FontsContainer.find_best_match env st = some (none, st)) ∧
    (∀ path font_index fk_font face,
      env.select_best_match = some (Handle.Path path font_index) →
      mGet st.fonts_fingerprint_id
        (generate_fingerprint env.sha1 (Handle.Path path font_index)) = none →
      env.load (Handle.Path path font_index) = some fk_font →
      env.face_from_file path font_index = some face →
      env.set_rusttype_funcs (env.font_new face) = false →
      FontsContainer.find_best_match env st = some (none, st)) := by
  refine ⟨fun st' h => find_best_match_none_eq h, ?_, ?_, ?_⟩
  · intro font_handle hsel hfp hload
    unfold FontsContainer.find_best_match
    rw [hsel]
    simp only
    rw [hfp]
    simp only
    rw [hload]
  · intro path font_index fk_font hsel hfp hload hface
    unfold FontsContainer.find_best_match
    rw [hsel]
    simp only
    rw [hfp]
    simp only
    rw [hload]
    simp only
    rw [hface]
  · intro path font_index fk_font face hsel hfp hload hface hrt
    unfold FontsContainer.find_best_match
    rw [hsel]
    simp only
    rw [hfp]
    simp only
    rw [hload]
    simp only
    rw [hface]
    simp only
    rw [if_neg (by rw [hrt]; exact Bool.false_ne_true)]

/-- Witness for C6 at `envLoadFail` from the empty container. -/
theorem find_best_match_failure_leaves_state_witness :
    FontsContainer.find_best_match envLoadFail FontsContainer.new =
      some (none, FontsContainer.new) :=
  (find_best_match_failure_leaves_state envLoadFail FontsContainer.new).2.1
    (Handle.Path [65] 0) rfl rfl rfl

/-- C9 counterexample: when the platform source resolves to the
raw-bytes variant but the font parse fails, `find_best_match` returns a
no-handle result instead of hard-failing — the claimed unconditional
panic on the memory variant does not hold. -/
theorem memory_descriptor_no_handle_counterexample :
    FontsContainer.find_best_match envMemLoadFail FontsContainer.new =
      some (none, FontsContainer.new) ∧
    FontsContainer.find_best_match envMemLoadFail FontsContainer.new ≠ none := by
  constructor
  · rfl
  · intro h
    cases h.symm.trans (rfl : FontsContainer.find_best_match envMemLoadFail FontsContainer.new =
      some (none, FontsContainer.new))

/-- C9 (amended): when the platform source resolves to a raw-bytes
descriptor whose fingerprint is not yet registered, `find_best_match`
hard-fails (panics) at the shaping-binding step whenever the font parse
succeeds, and in no case does the raw-bytes variant produce a handle. -/
theorem memory_descriptor_hard_failure (env : Env) (st : FontsContainer)
    (bytes : List Nat) (font_index : Nat)
    (hsel : env.select_best_match = some (Handle.Memory bytes font_index))
    (hfp : mGet st.fonts_fingerprint_id
      (generate_fingerprint env.sha1 (Handle.Memory bytes font_index)) = none) :
    (∀ fk_font, env.load (Handle.Memory bytes font_index) = some fk_font →
      FontsContainer.find_best_match env st = none) ∧
    (∀ r st', FontsContainer.find_best_match env st = some (r, st') → r = none) := by
  constructor
  · intro fk_font hload
    unfold FontsContainer.find_best_match
    rw [hsel]
    simp only
    rw [hfp]
    simp only
    rw [hload]
  · intro r st' h
    unfold FontsContainer.find_best_match at h
    rw [hsel] at h
    simp only at h
    rw [hfp] at h
    simp only at h
    cases hload : env.load (Handle.Memory bytes font_index) with
    | none =>
      rw [hload] at h
      simp only [Option.some.injEq, Prod.mk.injEq] at h
      exact h.1.symm
    | some fk_font =>
      rw [hload] at h
      simp only at h
      cases h

/-- Witness for the amended C9 theorem at `envMemLoadOk` from the empty
container. -/
theorem memory_descriptor_hard_failure_witness :
    FontsContainer.find_best_match envMemLoadOk FontsContainer.new = none :=
  (memory_descriptor_hard_failure envMemLoadOk FontsContainer.new [7] 0 rfl rfl).1 0 rfl

/-- C2: from a reachable state where the selected descriptor's
fingerprint is not yet registered, resolving it twice (the platform
source picking the same descriptor both times) returns the same font id
both times, leaves exactly one registry entry carrying that fingerprint
with refcount 2, and the second resolution only increments that entry's
refcount. -/
theorem resolve_twice_dedups (st : FontsContainer) (hreach : Reach st) (env : Env)
    (font_handle : Handle) (id1 : Nat) (st1 st2 : FontsContainer) (r2 : Option Nat)
    (hsel : env.select_best_match = some font_handle)
    (hfp : mGet st.fonts_fingerprint_id (generate_fingerprint env.sha1 font_handle) = none)
    (h1 : FontsContainer.find_best_match env st = some (some id1, st1))
    (h2 : FontsContainer.find_best_match env st1 = some (r2, st2)) :
    r2 = some id1 ∧
    (∃ fk_font hb_font,
      mGet st2.fonts_id_prop id1 = some { fk_font := fk_font, hb_font := hb_font, count := 2 } ∧
      st2.fonts_id_prop =
        mInsert st1.fonts_id_prop id1 { fk_font := fk_font, hb_font := hb_font, count := 2 }) ∧
    st2.fonts = st1.fonts ∧
    st2.fonts_fingerprint_id = st1.fonts_fingerprint_id ∧
    st2.buffers = st1.buffers ∧
    (∀ id', st2.fonts.get id' = some (generate_fingerprint env.sha1 font_handle) → id' = id1) := by
  obtain ⟨hid1, hfresh, fk_font, face, hload, hst1⟩ := find_best_match_fresh_eq hsel hfp h1
  have hm1 : mGet st1.fonts_id_prop id1 =
      some { fk_font := fk_font, hb_font := env.font_new face, count := 1 } := by
    rw [hst1]
    exact mGet_mInsert_self _ _ _
  have hfp1 : mGet st1.fonts_fingerprint_id (generate_fingerprint env.sha1 font_handle) =
      some id1 := by
    rw [hst1]
    exact mGet_mInsert_self _ _ _
  have hinc : st1.inc_font id1 = some { st1 with
      fonts_id_prop := mInsert st1.fonts_id_prop id1 { fk_font := fk_font, hb_font := env.font_new face, count := 2 } } := by
    unfold FontsContainer.inc_font
    rw [hm1]
  rw [find_best_match_registered_eq hsel hfp1, hinc] at h2
  simp only [Option.map_some', Option.some.injEq, Prod.mk.injEq] at h2
  obtain ⟨hr2, hst2⟩ := h2
  refine ⟨hr2.symm, ⟨fk_font, env.font_new face, ?_, ?_⟩, ?_, ?_, ?_, ?_⟩
  · rw [← hst2]
    exact mGet_mInsert_self _ _ _
  · rw [← hst2]
  · rw [← hst2]
  · rw [← hst2]
  · rw [← hst2]
  · intro id' hid'
    rw [← hst2] at hid'
    have hbase : st1.fonts.get id' = some (generate_fingerprint env.sha1 font_handle) := hid'
    rw [hst1] at hbase
    have hsplit := Slab.get_insert st.fonts (generate_fingerprint env.sha1 font_handle) id'
    rw [show ((st.fonts.insert (generate_fingerprint env.sha1 font_handle)).2).get id' =
        ({ st with
          fonts := (st.fonts.insert (generate_fingerprint env.sha1 font_handle)).2,
          fonts_fingerprint_id := mInsert st.fonts_fingerprint_id
            (generate_fingerprint env.sha1 font_handle) id1,
          fonts_id_prop := mInsert st.fonts_id_prop id1
            { fk_font := fk_font, hb_font := env.font_new face, count := 1 } } :
          FontsContainer).fonts.get id' from rfl, hbase] at hsplit
    by_cases hk : id' = (st.fonts.insert (generate_fingerprint env.sha1 font_handle)).1
    · rw [hk, hid1]
    · rw [if_neg hk] at hsplit
      have hcons := (reach_fontInv hreach).1 id' _ hsplit.symm
      rw [hfp] at hcons
      cases hcons

/-- Witness for C2 at `envPathOk` resolving twice from the empty
container. -/
theorem resolve_twice_dedups_witness :
    (some 0 : Option Nat) = some 0 ∧
    (∃ fk_font hb_font,
      mGet stP2.fonts_id_prop 0 = some { fk_font := fk_font, hb_font := hb_font, count := 2 } ∧
      stP2.fonts_id_prop =
        mInsert stP1.fonts_id_prop 0 { fk_font := fk_font, hb_font := hb_font, count := 2 }) ∧
    stP2.fonts = stP1.fonts ∧
    stP2.fonts_fingerprint_id = stP1.fonts_fingerprint_id ∧
    stP2.buffers = stP1.buffers ∧
    (∀ id', stP2.fonts.get id' =
      some (generate_fingerprint envPathOk.sha1 (Handle.Path [65] 0)) → id' = 0) :=
  resolve_twice_dedups FontsContainer.new Reach.new envPathOk (Handle.Path [65] 0)
    0 stP1 stP2 (some 0) rfl rfl rfl rfl

/-- N-fold duplication of a live font handle adds N to its refcount and
touches nothing else. -/
theorem incFontN_spec (id : Nat) (N : Nat) :
    ∀ (st : FontsContainer) (d : FontData), mGet st.fonts_id_prop id = some d →
    ∃ stm, incFontN st id N = some stm ∧
      stm.fonts = st.fonts ∧ stm.fonts_fingerprint_id = st.fonts_fingerprint_id ∧
      stm.buffers = st.buffers ∧
      mGet stm.fonts_id_prop id = some { d with count := d.count + N } ∧
      (∀ x, x ≠ id → mGet stm.fonts_id_prop x = mGet st.fonts_id_prop x) := by
  induction N with
  | zero =>
    intro st d hm
    exact ⟨st, rfl, rfl, rfl, rfl, hm, fun x hx => rfl⟩
  | succ N ih =>
    intro st d hm
    have hinc : st.inc_font id = some { st with
        fonts_id_prop := mInsert st.fonts_id_prop id { d with count := d.count + 1 } } := by
      unfold FontsContainer.inc_font
      rw [hm]
    obtain ⟨stm, hrec, hf, hfpm, hb, hentry, hother⟩ :=
      ih { st with fonts_id_prop := mInsert st.fonts_id_prop id { d with count := d.count + 1 } }
        { d with count := d.count + 1 } (mGet_mInsert_self _ _ _)
    refine ⟨stm, ?_, hf, hfpm, hb, ?_, ?_⟩
    · show (st.inc_font id).bind (fun st' => incFontN st' id N) = some stm
      rw [hinc]
      exact hrec
    · have hentry' : mGet stm.fonts_id_prop id =
          some { d with count := d.count + 1 + N } := hentry
      rw [show d.count + 1 + N = d.count + (N + 1) from by omega] at hentry'
      exact hentry'
    · intro x hx
      rw [hother x hx]
      exact mGet_mInsert_ne _ _ _ _ hx

/-- N releases of a live font handle whose refcount exceeds N subtract
N from its refcount, never delete it, and touch nothing else. -/
theorem decFontN_spec (id : Nat) (N : Nat) :
    ∀ (st : FontsContainer) (d : FontData), mGet st.fonts_id_prop id = some d →
    N < d.count →
    ∃ stm, decFontN st id N = some stm ∧
      stm.fonts = st.fonts ∧ stm.fonts_fingerprint_id = st.fonts_fingerprint_id ∧
      stm.buffers = st.buffers ∧
      mGet stm.fonts_id_prop id = some { d with count := d.count - N } ∧
      (∀ x, x ≠ id → mGet stm.fonts_id_prop x = mGet st.fonts_id_prop x) := by
  induction N with
  | zero =>
    intro st d hm hlt
    exact ⟨st, rfl, rfl, rfl, rfl, hm, fun x hx => rfl⟩
  | succ N ih =>
    intro st d hm hlt
    have hc : ¬(d.count - 1 = 0) := by omega
    have hdec : st.dec_font id = some { st with
        fonts_id_prop := mInsert st.fonts_id_prop id { d with count := d.count - 1 } } := by
      unfold FontsContainer.dec_font
      rw [hm]
      simp only
      rw [if_neg hc]
    obtain ⟨stm, hrec, hf, hfpm, hb, hentry, hother⟩ :=
      ih { st with fonts_id_prop := mInsert st.fonts_id_prop id { d with count := d.count - 1 } }
        { d with count := d.count - 1 } (mGet_mInsert_self _ _ _) (by simp; omega)
    refine ⟨stm, ?_, hf, hfpm, hb, ?_, ?_⟩
    · show (st.dec_font id).bind (fun st' => decFontN st' id N) = some stm
      rw [hdec]
      exact hrec
    · have hentry' : mGet stm.fonts_id_prop id =
          some { d with count := d.count - 1 - N } := hentry
      rw [show d.count - 1 - N = d.count - (N + 1) from by omega] at hentry'
      exact hentry'
    · intro x hx
      rw [hother x hx]
      exact mGet_mInsert_ne _ _ _ _ hx

/-- C4: for a live font entry, N handle duplications followed by N
releases return the entry's refcount and the whole registry to their
initial observable state, with the entry live throughout; and releasing
the last handle removes the entry, so a subsequent lookup of that id
finds nothing. -/
theorem refcount_conservation (st : FontsContainer) (id : Nat) (d : FontData) (N : Nat)
    (hm : mGet st.fonts_id_prop id = some d) (hpos : 1 ≤ d.count) :
    (∃ stm st', incFontN st id N = some stm ∧ decFontN stm id N = some st' ∧
      mGet st'.fonts_id_prop id = some d ∧
      st'.fonts = st.fonts ∧ st'.fonts_fingerprint_id = st.fonts_fingerprint_id ∧
      st'.buffers = st.buffers ∧
      (∀ x, x ≠ id → mGet st'.fonts_id_prop x = mGet st.fonts_id_prop x)) ∧
    (∀ fp, d.count = 1 → st.fonts.get id = some fp →
      ∃ st'', st.dec_font id = some st'' ∧
        mGet st''.fonts_id_prop id = none ∧ st''.fonts.get id = none ∧
        font_from_id st'' id = (none, st'')) := by
  constructor
  · obtain ⟨stm, hup, hf1, hfpm1, hb1, hentry1, hother1⟩ := incFontN_spec id N st d hm
    obtain ⟨st', hdown, hf2, hfpm2, hb2, hentry2, hother2⟩ :=
      decFontN_spec id N stm { d with count := d.count + N } hentry1 (by simp; omega)
    refine ⟨stm, st', hup, hdown, ?_, hf2.trans hf1, hfpm2.trans hfpm1, hb2.trans hb1, ?_⟩
    · have hentry' : mGet st'.fonts_id_prop id =
          some { d with count := d.count + N - N } := hentry2
      rw [show d.count + N - N = d.count from by omega] at hentry'
      exact hentry'
    · intro x hx
      rw [hother2 x hx]
      exact hother1 x hx
  · intro fp hone hslab
    have hc : ({ d with count := d.count - 1 } : FontData).count = 0 := by
      simp [hone]
    have hdec : st.dec_font id = FontsContainer.delete_font { st with
        fonts_id_prop := mInsert st.fonts_id_prop id { d with count := d.count - 1 } } id := by
      unfold FontsContainer.dec_font
      rw [hm]
      simp only
      rw [if_pos (by simpa using hc)]
    have hslab1 : ({ st with
        fonts_id_prop := mInsert st.fonts_id_prop id { d with count := d.count - 1 } } :
        FontsContainer).fonts.get id = some fp := hslab
    have hdel : FontsContainer.delete_font { st with
        fonts_id_prop := mInsert st.fonts_id_prop id { d with count := d.count - 1 } } id =
        some { st with
          fonts_id_prop := mRemove (mInsert st.fonts_id_prop id { d with count := d.count - 1 }) id,
          fonts := ⟨st.fonts.entries.set id none⟩,
          fonts_fingerprint_id := mRemove st.fonts_fingerprint_id fp } := by
      unfold FontsContainer.delete_font
      rw [Slab.tryRemove_isSome _ id fp hslab1]
    have hnone : mGet (mRemove (mInsert st.fonts_id_prop id { d with count := d.count - 1 }) id) id = none := by
      rw [mGet_mRemove]
      simp
    refine ⟨_, hdec.trans hdel, hnone, Slab.get_set_none st.fonts id, ?_⟩
    show font_from_id _ id = _
    unfold font_from_id FontsContainer.get_and_inc_font
    rw [show mGet (mRemove (mInsert st.fonts_id_prop id { d with count := d.count - 1 }) id) id = none from hnone]

/-- Witness for C4 at the single-entry container with N = 3. -/
theorem refcount_conservation_witness :
    (∃ stm st', incFontN stFontOne 0 3 = some stm ∧ decFontN stm 0 3 = some st' ∧
      mGet st'.fonts_id_prop 0 = some { fk_font := 0, hb_font := 0, count := 1 } ∧
      st'.fonts = stFontOne.fonts ∧
      st'.fonts_fingerprint_id = stFontOne.fonts_fingerprint_id ∧
      st'.buffers = stFontOne.buffers ∧
      (∀ x, x ≠ 0 → mGet st'.fonts_id_prop x = mGet stFontOne.fonts_id_prop x)) ∧
    (∀ fp, ({ fk_font := 0, hb_font := 0, count := 1 } : FontData).count = 1 →
      stFontOne.fonts.get 0 = some fp →
      ∃ st'', stFontOne.dec_font 0 = some st'' ∧
        mGet st''.fonts_id_prop 0 = none ∧ st''.fonts.get 0 = none ∧
        font_from_id st'' 0 = (none, st'')) :=
  refcount_conservation stFontOne 0 { fk_font := 0, hb_font := 0, count := 1 } 3 rfl
    (by decide)

/-- C5: duplicating a buffer handle bumps the buffer's refcount and,
independently, the nested font handle's refcount by exactly one each;
destroying a buffer handle decrements each counter exactly once; and
while the buffer holds its font reference, releasing every other font
handle leaves the font entry live (refcount 1) with the buffer intact. -/
theorem buffer_clone_drop_refcounts (st : FontsContainer) (b : Buffer)
    (bd : BufferData) (fd : FontData)
    (hb : st.buffers.get b._id = some bd)
    (hf : mGet st.fonts_id_prop b._font.id = some fd) :
    (∃ st', Buffer.clone st b = some st' ∧
      st'.buffers.get b._id = some { bd with count := bd.count + 1 } ∧
      mGet st'.fonts_id_prop b._font.id = some { fd with count := fd.count + 1 } ∧
      (∀ j, j ≠ b._id → st'.buffers.get j = st.buffers.get j) ∧
      (∀ x, x ≠ b._font.id → mGet st'.fonts_id_prop x = mGet st.fonts_id_prop x) ∧
      st'.fonts = st.fonts ∧ st'.fonts_fingerprint_id = st.fonts_fingerprint_id) ∧
    (2 ≤ bd.count → 2 ≤ fd.count →
      ∃ st', Buffer.drop st b = some st' ∧
        st'.buffers.get b._id = some { bd with count := bd.count - 1 } ∧
        mGet st'.fonts_id_prop b._font.id = some { fd with count := fd.count - 1 } ∧
        (∀ j, j ≠ b._id → st'.buffers.get j = st.buffers.get j) ∧
        (∀ x, x ≠ b._font.id → mGet st'.fonts_id_prop x = mGet st.fonts_id_prop x)) ∧
    (∀ n, n + 1 = fd.count →
      ∃ st', decFontN st b._font.id n = some st' ∧
        mGet st'.fonts_id_prop b._font.id = some { fd with count := 1 } ∧
        st'.buffers = st.buffers ∧ st'.buffers.get b._id = some bd) := by
  refine ⟨?_, ?_, ?_⟩
  · have hincb : st.inc_buffer b._id = some { st with
        buffers := st.buffers.update b._id { bd with count := bd.count + 1 } } := by
      unfold FontsContainer.inc_buffer
      rw [hb]
    have hincf : FontsContainer.inc_font { st with
        buffers := st.buffers.update b._id { bd with count := bd.count + 1 } } b._font.id =
        some { st with
          buffers := st.buffers.update b._id { bd with count := bd.count + 1 },
          fonts_id_prop := mInsert st.fonts_id_prop b._font.id { fd with count := fd.count + 1 } } := by
      unfold FontsContainer.inc_font
      rw [show mGet ({ st with
        buffers := st.buffers.update b._id { bd with count := bd.count + 1 } } :
        FontsContainer).fonts_id_prop b._font.id = some fd from hf]
    refine ⟨{ st with
        buffers := st.buffers.update b._id { bd with count := bd.count + 1 },
        fonts_id_prop := mInsert st.fonts_id_prop b._font.id { fd with count := fd.count + 1 } },
      ?_, ?_, ?_, ?_, ?_, rfl, rfl⟩
    · show (st.inc_buffer b._id).bind (fun st1 => st1.inc_font b._font.id) = _
      rw [hincb]
      exact hincf
    · show (st.buffers.update b._id { bd with count := bd.count + 1 }).get b._id =
        some { bd with count := bd.count + 1 }
      rw [Slab.get_update st.buffers b._id _ bd hb, if_pos rfl]
    · exact mGet_mInsert_self _ _ _
    · intro j hj
      show (st.buffers.update b._id { bd with count := bd.count + 1 }).get j =
        st.buffers.get j
      rw [Slab.get_update st.buffers b._id _ bd hb, if_neg hj]
    · intro x hx
      exact mGet_mInsert_ne _ _ _ _ hx
  · intro hb2 hf2
    have hcb : ¬(bd.count - 1 = 0) := by omega
    have hcf : ¬(fd.count - 1 = 0) := by omega
    have hdecb : st.dec_buffer b._id = some { st with
        buffers := st.buffers.update b._id { bd with count := bd.count - 1 } } := by
      unfold FontsContainer.dec_buffer
      rw [hb]
      simp only
      rw [if_neg hcb]
    have hdecf : FontsContainer.dec_font { st with
        buffers := st.buffers.update b._id { bd with count := bd.count - 1 } } b._font.id =
        some { st with
          buffers := st.buffers.update b._id { bd with count := bd.count - 1 },
          fonts_id_prop := mInsert st.fonts_id_prop b._font.id { fd with count := fd.count - 1 } } := by
      unfold FontsContainer.dec_font
      rw [show mGet ({ st with
        buffers := st.buffers.update b._id { bd with count := bd.count - 1 } } :
        FontsContainer).fonts_id_prop b._font.id = some fd from hf]
      simp only
      rw [if_neg hcf]
    refine ⟨{ st with
        buffers := st.buffers.update b._id { bd with count := bd.count - 1 },
        fonts_id_prop := mInsert st.fonts_id_prop b._font.id { fd with count := fd.count - 1 } },
      ?_, ?_, ?_, ?_, ?_⟩
    · show (st.dec_buffer b._id).bind (fun st1 => st1.dec_font b._font.id) = _
      rw [hdecb]
      exact hdecf
    · show (st.buffers.update b._id { bd with count := bd.count - 1 }).get b._id =
        some { bd with count := bd.count - 1 }
      rw [Slab.get_update st.buffers b._id _ bd hb, if_pos rfl]
    · exact mGet_mInsert_self _ _ _
    · intro j hj
      show (st.buffers.update b._id { bd with count := bd.count - 1 }).get j =
        st.buffers.get j
      rw [Slab.get_update st.buffers b._id _ bd hb, if_neg hj]
    · intro x hx
      exact mGet_mInsert_ne _ _ _ _ hx
  · intro n hn
    obtain ⟨st', hdown, hfonts, hfpm, hbuf, hentry, hother⟩ :=
      decFontN_spec b._font.id n st fd hf (by omega)
    have hentry' : mGet st'.fonts_id_prop b._font.id = some { fd with count := 1 } := by
      rw [show (1 : Nat) = fd.count - n from by omega]
      exact hentry
    refine ⟨st', hdown, hentry', hbuf, ?_⟩
    rw [hbuf]
    exact hb

/-- Witness for C5 at `stBufFont`. -/
theorem buffer_clone_drop_refcounts_witness :
    (∃ st', Buffer.clone stBufFont bW = some st' ∧
      st'.buffers.get bW._id = some { bufW with count := bufW.count + 1 } ∧
      mGet st'.fonts_id_prop bW._font.id =
        some { fk_font := 0, hb_font := 0, count := (2 : Nat) + 1 } ∧
      (∀ j, j ≠ bW._id → st'.buffers.get j = stBufFont.buffers.get j) ∧
      (∀ x, x ≠ bW._font.id → mGet st'.fonts_id_prop x = mGet stBufFont.fonts_id_prop x) ∧
      st'.fonts = stBufFont.fonts ∧
      st'.fonts_fingerprint_id = stBufFont.fonts_fingerprint_id) ∧
    (2 ≤ bufW.count → 2 ≤ ({ fk_font := 0, hb_font := 0, count := 2 } : FontData).count →
      ∃ st', Buffer.drop stBufFont bW = some st' ∧
        st'.buffers.get bW._id = some { bufW with count := bufW.count - 1 } ∧
        mGet st'.fonts_id_prop bW._font.id =
          some { fk_font := 0, hb_font := 0, count := (2 : Nat) - 1 } ∧
        (∀ j, j ≠ bW._id → st'.buffers.get j = stBufFont.buffers.get j) ∧
        (∀ x, x ≠ bW._font.id → mGet st'.fonts_id_prop x = mGet stBufFont.fonts_id_prop x)) ∧
    (∀ n, n + 1 = ({ fk_font := 0, hb_font := 0, count := 2 } : FontData).count →
      ∃ st', decFontN stBufFont bW._font.id n = some st' ∧
        mGet st'.fonts_id_prop bW._font.id =
          some { fk_font := 0, hb_font := 0, count := 1 } ∧
        st'.buffers = stBufFont.buffers ∧ st'.buffers.get bW._id = some bufW) :=
  buffer_clone_drop_refcounts stBufFont bW bufW
    { fk_font := 0, hb_font := 0, count := 2 } rfl rfl

/-- Looking up an absent buffer id returns no handle and leaves the
container untouched. -/
theorem buffer_from_id_absent (st : FontsContainer) (buffer_id : Nat)
    (h : st.buffers.get buffer_id = none) :
    buffer_from_id st buffer_id = (none, st) := by
  unfold buffer_from_id FontsContainer.get_and_inc_buffer
  rw [h]

/-- Dropping a buffer handle as many times as its refcount deletes the
buffer entry (the nested font handle is released alongside each drop). -/
theorem bufferDropN_releases (b : Buffer) (fp : Fingerprint) (N : Nat) :
    ∀ (st : FontsContainer) (bd : BufferData) (fd : FontData),
    st.buffers.get b._id = some bd → bd.count = N →
    mGet st.fonts_id_prop b._font.id = some fd → N ≤ fd.count →
    st.fonts.get b._font.id = some fp → 1 ≤ N →
    ∃ st', bufferDropN st b N = some st' ∧ st'.buffers.get b._id = none := by
  induction N with
  | zero =>
    intro st bd fd _ _ _ _ _ h1
    exact absurd h1 (by omega)
  | succ M ih =>
    intro st bd fd hb hcount hf hle hslab _
    by_cases hM : M = 0
    · subst hM
      have hc0 : bd.count - 1 = 0 := by omega
      have hupd : (st.buffers.update b._id { bd with count := bd.count - 1 }).get b._id =
          some { bd with count := bd.count - 1 } := by
        rw [Slab.get_update st.buffers b._id _ bd hb, if_pos rfl]
      have hdecb : st.dec_buffer b._id = some { st with
          buffers := ⟨(st.buffers.update b._id { bd with count := bd.count - 1 }).entries.set b._id none⟩ } := by
        unfold FontsContainer.dec_buffer
        rw [hb]
        simp only
        rw [if_pos (by simpa using hc0)]
        show FontsContainer.delete_buffer _ b._id = _
        unfold FontsContainer.delete_buffer
        rw [show Slab.tryRemove ({ st with
          buffers := st.buffers.update b._id { bd with count := bd.count - 1 } } :
          FontsContainer).buffers b._id = some ({ bd with count := bd.count - 1 },
          ⟨(st.buffers.update b._id { bd with count := bd.count - 1 }).entries.set b._id none⟩)
          from Slab.tryRemove_isSome _ b._id _ hupd]
        rfl
      have hgone : (Slab.mk ((st.buffers.update b._id { bd with count := bd.count - 1 }).entries.set b._id none) : Slab BufferData).get b._id = none :=
        Slab.get_set_none _ b._id
      by_cases hcf : fd.count - 1 = 0
      · have hdecf : FontsContainer.dec_font { st with
            buffers := ⟨(st.buffers.update b._id { bd with count := bd.count - 1 }).entries.set b._id none⟩ } b._font.id =
            some { st with
              buffers := ⟨(st.buffers.update b._id { bd with count := bd.count - 1 }).entries.set b._id none⟩,
              fonts_id_prop := mRemove st.fonts_id_prop b._font.id,
              fonts := ⟨st.fonts.entries.set b._font.id none⟩,
              fonts_fingerprint_id := mRemove st.fonts_fingerprint_id fp } := by
          unfold FontsContainer.dec_font
          rw [show mGet ({ st with
            buffers := ⟨(st.buffers.update b._id { bd with count := bd.count - 1 }).entries.set b._id none⟩ } :
            FontsContainer).fonts_id_prop b._font.id = some fd from hf]
          simp only
          rw [if_pos (by simpa using hcf)]
          unfold FontsContainer.delete_font
          rw [show Slab.tryRemove ({ st with
            buffers := ⟨(st.buffers.update b._id { bd with count := bd.count - 1 }).entries.set b._id none⟩,
            fonts_id_prop := mInsert st.fonts_id_prop b._font.id { fd with count := fd.count - 1 } } :
            FontsContainer).fonts b._font.id = some (fp, ⟨st.fonts.entries.set b._font.id none⟩)
            from Slab.tryRemove_isSome _ b._font.id _ hslab]
          simp only
          rw [mRemove_mInsert]
        refine ⟨{ st with
            buffers := ⟨(st.buffers.update b._id { bd with count := bd.count - 1 }).entries.set b._id none⟩,
            fonts_id_prop := mRemove st.fonts_id_prop b._font.id,
            fonts := ⟨st.fonts.entries.set b._font.id none⟩,
            fonts_fingerprint_id := mRemove st.fonts_fingerprint_id fp }, ?_, hgone⟩
        show (Buffer.drop st b).bind (fun st' => bufferDropN st' b 0) = _
        unfold Buffer.drop
        rw [hdecb, Option.some_bind, hdecf, Option.some_bind]
        rfl
      · have hdecf : FontsContainer.dec_font { st with
            buffers := ⟨(st.buffers.update b._id { bd with count := bd.count - 1 }).entries.set b._id none⟩ } b._font.id =
            some { st with
              buffers := ⟨(st.buffers.update b._id { bd with count := bd.count - 1 }).entries.set b._id none⟩,
              fonts_id_prop := mInsert st.fonts_id_prop b._font.id { fd with count := fd.count - 1 } } := by
          unfold FontsContainer.dec_font
          rw [show mGet ({ st with
            buffers := ⟨(st.buffers.update b._id { bd with count := bd.count - 1 }).entries.set b._id none⟩ } :
            FontsContainer).fonts_id_prop b._font.id = some fd from hf]
          simp only
          rw [if_neg (by simpa using hcf)]
        refine ⟨{ st with
            buffers := ⟨(st.buffers.update b._id { bd with count := bd.count - 1 }).entries.set b._id none⟩,
            fonts_id_prop := mInsert st.fonts_id_prop b._font.id { fd with count := fd.count - 1 } }, ?_, hgone⟩
        show (Buffer.drop st b).bind (fun st' => bufferDropN st' b 0) = _
        unfold Buffer.drop
        rw [hdecb, Option.some_bind, hdecf, Option.some_bind]
        rfl
    · have hcb : ¬(bd.count - 1 = 0) := by omega
      have hcf : ¬(fd.count - 1 = 0) := by omega
      have hdecb : st.dec_buffer b._id = some { st with
          buffers := st.buffers.update b._id { bd with count := bd.count - 1 } } := by
        unfold FontsContainer.dec_buffer
        rw [hb]
        simp only
        rw [if_neg hcb]
      have hdecf : FontsContainer.dec_font { st with
          buffers := st.buffers.update b._id { bd with count := bd.count - 1 } } b._font.id =
          some { st with
            buffers := st.buffers.update b._id { bd with count := bd.count - 1 },
            fonts_id_prop := mInsert st.fonts_id_prop b._font.id { fd with count := fd.count - 1 } } := by
        unfold FontsContainer.dec_font
        rw [show mGet ({ st with
          buffers := st.buffers.update b._id { bd with count := bd.count - 1 } } :
          FontsContainer).fonts_id_prop b._font.id = some fd from hf]
        simp only
        rw [if_neg hcf]
      obtain ⟨st', hrec, hnone⟩ := ih { st with
          buffers := st.buffers.update b._id { bd with count := bd.count - 1 },
          fonts_id_prop := mInsert st.fonts_id_prop b._font.id { fd with count := fd.count - 1 } }
        { bd with count := bd.count - 1 } { fd with count := fd.count - 1 }
        (by show (st.buffers.update b._id { bd with count := bd.count - 1 }).get b._id = _
            rw [Slab.get_update st.buffers b._id _ bd hb, if_pos rfl])
        (by simp; omega)
        (mGet_mInsert_self _ _ _)
        (by simp; omega)
        hslab
        (by omega)
      refine ⟨st', ?_, hnone⟩
      show (Buffer.drop st b).bind (fun s => bufferDropN s b M) = some st'
      unfold Buffer.drop
      rw [hdecb, Option.some_bind, hdecf, Option.some_bind]
      exact hrec

/-- C7: taking a weak buffer reference reads the two ids out of the
handle without touching any refcount, and once every owning buffer
handle has been released, looking the buffer up through the weak
reference's id yields the plain value `none` with the container left as
it is — not a panic. -/
theorem weak_ref_non_owning (st : FontsContainer) (b : Buffer) (bd : BufferData)
    (fd : FontData) (fp : Fingerprint)
    (hb : st.buffers.get b._id = some bd)
    (hf : mGet st.fonts_id_prop b._font.id = some fd)
    (hcnt : bd.count ≤ fd.count) (hpos : 1 ≤ bd.count)
    (hslab : st.fonts.get b._font.id = some fp) :
    Buffer.weak_ref b = { _font_id := b._font.id, _id := b._id } ∧
    (Buffer.weak_ref b)._id = b._id ∧
    ∃ st', bufferDropN st b bd.count = some st' ∧
      st'.buffers.get (Buffer.weak_ref b)._id = none ∧
      buffer_from_id st' (Buffer.weak_ref b)._id = (none, st') := by
  refine ⟨rfl, rfl, ?_⟩
  obtain ⟨st', hdrop, hnone⟩ :=
    bufferDropN_releases b fp bd.count st bd fd hb rfl hf hcnt hslab hpos
  exact ⟨st', hdrop, hnone, buffer_from_id_absent st' b._id hnone⟩

/-- Witness for C7 at `stBufFont`, releasing both owning handles of
buffer 0. -/
theorem weak_ref_non_owning_witness :
    Buffer.weak_ref bW = { _font_id := bW._font.id, _id := bW._id } ∧
    (Buffer.weak_ref bW)._id = bW._id ∧
    ∃ st', bufferDropN stBufFont bW bufW.count = some st' ∧
      st'.buffers.get (Buffer.weak_ref bW)._id = none ∧
      buffer_from_id st' (Buffer.weak_ref bW)._id = (none, st') :=
  weak_ref_non_owning stBufFont bW bufW { fk_font := 0, hb_font := 0, count := 2 } fpW
    rfl rfl (by decide) (by decide) rfl

/-- C8: for a live buffer the glyph query appends, to the caller's
output vector, the fixed sequence obtained by zipping the cached shaped
result's position and info arrays — one (glyph id, cluster, advances,
offsets) record per shaped glyph — without touching the container, so
every repeated call without an intervening replace appends that same
sequence. -/
theorem glyph_query_idempotent (st : FontsContainer) (buffer_id : Nat)
    (bd : BufferData) (gb : GlyphBuffer)
    (hb : st.buffers.get buffer_id = some bd) (hgb : bd.buffer = some gb) :
    ∃ seg : List GlyphPosition,
      (∀ output, FontsContainer.buffer_glyphs st buffer_id output = some (output ++ seg)) ∧
      seg = (gb.positions.zip gb.infos).map (fun pi =>
        { id := pi.2.codepoint
          cluster := pi.2.cluster
          x_advance := pi.1.x_advance
          y_advance := pi.1.y_advance
          x_offset := pi.1.x_offset
          y_offset := pi.1.y_offset }) ∧
      seg.length = min gb.positions.length gb.infos.length := by
  refine ⟨(gb.positions.zip gb.infos).map (fun pi =>
    { id := pi.2.codepoint
      cluster := pi.2.cluster
      x_advance := pi.1.x_advance
      y_advance := pi.1.y_advance
      x_offset := pi.1.x_offset
      y_offset := pi.1.y_offset }), ?_, rfl, ?_⟩
  · intro output
    unfold FontsContainer.buffer_glyphs
    rw [hb]
    show bd.positions output = _
    unfold BufferData.positions
    rw [hgb]
  · rw [List.length_map, List.length_zip]

/-- Witness for C8 at buffer 0 of `stGlyph`. -/
theorem glyph_query_idempotent_witness :
    ∃ seg : List GlyphPosition,
      (∀ output, FontsContainer.buffer_glyphs stGlyph 0 output = some (output ++ seg)) ∧
      seg = (gbW.positions.zip gbW.infos).map (fun pi =>
        { id := pi.2.codepoint
          cluster := pi.2.cluster
          x_advance := pi.1.x_advance
          y_advance := pi.1.y_advance
          x_offset := pi.1.x_offset
          y_offset := pi.1.y_offset }) ∧
      seg.length = min gbW.positions.length gbW.infos.length :=
  glyph_query_idempotent stGlyph 0 bufG gbW rfl rfl

/-- C10: `buffer_from_id` returns `none` with the container unchanged
exactly when the buffer id is absent; when the buffer exists but its
recorded font id has no live entry, it returns `none` having already
incremented that buffer's refcount (the failure is not atomic); and
when both exist it hands back a buffer handle after incrementing both
refcounts. -/
theorem buffer_from_id_not_atomic (st : FontsContainer) (buffer_id : Nat) :
    (st.buffers.get buffer_id = none → buffer_from_id st buffer_id = (none, st)) ∧
    (∀ bd, st.buffers.get buffer_id = some bd → mGet st.fonts_id_prop bd.font_id = none →
      buffer_from_id st buffer_id =
        (none, { st with buffers := st.buffers.update buffer_id { bd with count := bd.count + 1 } }) ∧
      ({ st with buffers := st.buffers.update buffer_id { bd with count := bd.count + 1 } } :
        FontsContainer).buffers.get buffer_id = some { bd with count := bd.count + 1 } ∧
      ({ st with buffers := st.buffers.update buffer_id { bd with count := bd.count + 1 } } :
        FontsContainer) ≠ st) ∧
    (∀ bd fd, st.buffers.get buffer_id = some bd → mGet st.fonts_id_prop bd.font_id = some fd →
      buffer_from_id st buffer_id =
        (some ⟨⟨bd.font_id⟩, buffer_id⟩, { st with
          buffers := st.buffers.update buffer_id { bd with count := bd.count + 1 },
          fonts_id_prop := mInsert st.fonts_id_prop bd.font_id { fd with count := fd.count + 1 } })) := by
  refine ⟨buffer_from_id_absent st buffer_id, ?_, ?_⟩
  · intro bd hbd hfnone
    have hgib : st.get_and_inc_buffer buffer_id = (some (bd.font_id, buffer_id),
        { st with buffers := st.buffers.update buffer_id { bd with count := bd.count + 1 } }) := by
      unfold FontsContainer.get_and_inc_buffer
      rw [hbd]
    have hgif : FontsContainer.get_and_inc_font { st with
        buffers := st.buffers.update buffer_id { bd with count := bd.count + 1 } } bd.font_id =
        (none, { st with buffers := st.buffers.update buffer_id { bd with count := bd.count + 1 } }) := by
      unfold FontsContainer.get_and_inc_font
      rw [show mGet ({ st with
        buffers := st.buffers.update buffer_id { bd with count := bd.count + 1 } } :
        FontsContainer).fonts_id_prop bd.font_id = none from hfnone]
    refine ⟨?_, ?_, ?_⟩
    · unfold buffer_from_id
      rw [hgib]
      show (match FontsContainer.get_and_inc_font { st with
        buffers := st.buffers.update buffer_id { bd with count := bd.count + 1 } } bd.font_id with
        | (none, st'') => ((none : Option Buffer), st'')
        | (some fid, st'') => (some ⟨⟨fid⟩, buffer_id⟩, st'')) = _
      rw [hgif]
    · show (st.buffers.update buffer_id { bd with count := bd.count + 1 }).get buffer_id =
        some { bd with count := bd.count + 1 }
      rw [Slab.get_update st.buffers buffer_id _ bd hbd, if_pos rfl]
    · intro heq
      have hcong : ({ st with
          buffers := st.buffers.update buffer_id { bd with count := bd.count + 1 } } :
          FontsContainer).buffers.get buffer_id = st.buffers.get buffer_id := by
        rw [heq]
      rw [show ({ st with
          buffers := st.buffers.update buffer_id { bd with count := bd.count + 1 } } :
          FontsContainer).buffers = st.buffers.update buffer_id { bd with count := bd.count + 1 }
          from rfl] at hcong
      rw [Slab.get_update st.buffers buffer_id _ bd hbd, if_pos rfl, hbd] at hcong
      have hc := congrArg BufferData.count (Option.some.inj hcong)
      simp only at hc
      omega
  · intro bd fd hbd hfd
    have hgib : st.get_and_inc_buffer buffer_id = (some (bd.font_id, buffer_id),
        { st with buffers := st.buffers.update buffer_id { bd with count := bd.count + 1 } }) := by
      unfold FontsContainer.get_and_inc_buffer
      rw [hbd]
    have hgif : FontsContainer.get_and_inc_font { st with
        buffers := st.buffers.update buffer_id { bd with count := bd.count + 1 } } bd.font_id =
        (some bd.font_id, { st with
          buffers := st.buffers.update buffer_id { bd with count := bd.count + 1 },
          fonts_id_prop := mInsert st.fonts_id_prop bd.font_id { fd with count := fd.count + 1 } }) := by
      unfold FontsContainer.get_and_inc_font
      rw [show mGet ({ st with
        buffers := st.buffers.update buffer_id { bd with count := bd.count + 1 } } :
        FontsContainer).fonts_id_prop bd.font_id = some fd from hfd]
    unfold buffer_from_id
    rw [hgib]
    show (match FontsContainer.get_and_inc_font { st with
      buffers := st.buffers.update buffer_id { bd with count := bd.count + 1 } } bd.font_id with
      | (none, st'') => ((none : Option Buffer), st'')
      | (some fid, st'') => (some ⟨⟨fid⟩, buffer_id⟩, st'')) = _
    rw [hgif]

/-- Witness for C10: the absent-id case at id 3 of `stOrphan`, the
orphaned-font case at buffer 0 of `stOrphan`, and the fully live case
at buffer 0 of `stBufFont`. -/
theorem buffer_from_id_not_atomic_witness :
    (buffer_from_id stOrphan 3 = (none, stOrphan)) ∧
    (buffer_from_id stOrphan 0 =
      (none, { stOrphan with
        buffers := stOrphan.buffers.update 0 { bufOrphan with count := bufOrphan.count + 1 } }) ∧
      ({ stOrphan with
        buffers := stOrphan.buffers.update 0 { bufOrphan with count := bufOrphan.count + 1 } } :
        FontsContainer).buffers.get 0 = some { bufOrphan with count := bufOrphan.count + 1 } ∧
      ({ stOrphan with
        buffers := stOrphan.buffers.update 0 { bufOrphan with count := bufOrphan.count + 1 } } :
        FontsContainer) ≠ stOrphan) ∧
    (buffer_from_id stBufFont 0 =
      (some ⟨⟨bufW.font_id⟩, 0⟩, { stBufFont with
        buffers := stBufFont.buffers.update 0 { bufW with count := bufW.count + 1 },
        fonts_id_prop := mInsert stBufFont.fonts_id_prop bufW.font_id
          { fk_font := 0, hb_font := 0, count := (2 : Nat) + 1 } })) :=
  ⟨(buffer_from_id_not_atomic stOrphan 3).1 rfl,
   (buffer_from_id_not_atomic stOrphan 0).2.1 bufOrphan rfl rfl,
   (buffer_from_id_not_atomic stBufFont 0).2.2 bufW
     { fk_font := 0, hb_font := 0, count := 2 } rfl rfl⟩

/-- C1: every reachable container state keeps exactly one font entry
per distinct fingerprint with the fingerprint-to-id and id-to-entry
tables mutually consistent, and a release that takes a refcount to zero
removes the entry from both the id table and the fingerprint table with
no intermediate state observable. -/
theorem registry_invariant_reachable (st : FontsContainer) (h : Reach st) :
    RegistryConsistent st ∧ ReleaseRemovesBoth st := by
  obtain ⟨h1, h2, h3⟩ := reach_fontInv h
  constructor
  · refine ⟨h1, h2, h3, ?_⟩
    intro id1 id2 fp ha hb
    have hca := h1 id1 fp ha
    have hcb := h1 id2 fp hb
    rw [hca] at hcb
    exact Option.some.inj hcb
  · intro id d fp hm hone hslab
    have hc : ({ d with count := d.count - 1 } : FontData).count = 0 := by
      simp [hone]
    have hdec : st.dec_font id = FontsContainer.delete_font { st with
        fonts_id_prop := mInsert st.fonts_id_prop id { d with count := d.count - 1 } } id := by
      unfold FontsContainer.dec_font
      rw [hm]
      simp only
      rw [if_pos (by simpa using hc)]
    have hslab1 : ({ st with
        fonts_id_prop := mInsert st.fonts_id_prop id { d with count := d.count - 1 } } :
        FontsContainer).fonts.get id = some fp := hslab
    have hdel : FontsContainer.delete_font { st with
        fonts_id_prop := mInsert st.fonts_id_prop id { d with count := d.count - 1 } } id =
        some { st with
          fonts_id_prop := mRemove (mInsert st.fonts_id_prop id { d with count := d.count - 1 }) id,
          fonts := ⟨st.fonts.entries.set id none⟩,
          fonts_fingerprint_id := mRemove st.fonts_fingerprint_id fp } := by
      unfold FontsContainer.delete_font
      rw [Slab.tryRemove_isSome _ id fp hslab1]
    refine ⟨_, hdec.trans hdel, ?_, Slab.get_set_none st.fonts id, ?_⟩
    · show mGet (mRemove (mInsert st.fonts_id_prop id { d with count := d.count - 1 }) id) id = none
      rw [mGet_mRemove]
      simp
    · show mGet (mRemove st.fonts_fingerprint_id fp) fp = none
      rw [mGet_mRemove]
      simp

/-- Witness for C1 at the freshly constructed container. -/
theorem registry_invariant_reachable_witness :
    RegistryConsistent FontsContainer.new ∧ ReleaseRemovesBoth FontsContainer.new :=
  registry_invariant_reachable FontsContainer.new Reach.new

end Fonts
